import Mathlib

/-!
The conversation engine of the fact-collecting bot (`main.go`)

A shallow embedding of the dialogue handlers and of the dispatch in `main`.

* Go strings are modelled by `String` (inbound texts are decoded JSON, hence
  valid UTF-8); the functions of package `strings` that the handlers call are
  written over the list of runes `String.data`.
* `map[string]string` is a list of entries with pairwise distinct keys. The
  position of an entry carries no meaning: a `range` loop visits the entries in
  an order chosen by the runtime, given here by an explicit `RangeOrder`.
* `Sender.Send` appends to the list of sent messages returned by each handler
  (its results are discarded in the source: `_, _ = sender.Send(msg)`).
* A handler receives the session by pointer and mutates it; here it returns the
  session it leaves behind.
-/

namespace GoBot

/-! ## Package `strings` and `unicode` -/

/-- Go `unicode.IsSpace`: the Latin-1 spaces `\t \n \v \f \r`, space, U+0085,
U+00A0, and the other code points with the White_Space property. -/
def isSpace (r : Char) : Bool :=
  let n := r.toNat
  (0x09 ≤ n && n ≤ 0x0D) || n = 0x20 || n = 0x85 || n = 0xA0 || n = 0x1680 ||
  (0x2000 ≤ n && n ≤ 0x200A) || n = 0x2028 || n = 0x2029 || n = 0x202F ||
  n = 0x205F || n = 0x3000

/-- Go `strings.TrimSpace`: all leading and trailing white space removed. -/
def TrimSpace (s : String) : String :=
  ⟨(s.data.dropWhile isSpace).rdropWhile isSpace⟩

/-- Go `unicode.ToLower`: ASCII is handled inline (`'A'..'Z'` shifted by
`'a' - 'A'`, every other ASCII rune returned as is); a rune above `MaxASCII`
is looked up in the Unicode case table `unicode.CaseRanges`, which is not part
of the repository and is the parameter `caseTable`. -/
def unicodeToLower (caseTable : Char → Char) (r : Char) : Char :=
  if r.toNat ≤ 0x7F then
    if 0x41 ≤ r.toNat ∧ r.toNat ≤ 0x5A then Char.ofNat (r.toNat + 0x20) else r
  else caseTable r

/-- Go `strings.ToLower`: every rune mapped by `unicode.ToLower` (the ASCII
fast path of the library computes the same string). -/
def ToLower (caseTable : Char → Char) (s : String) : String :=
  ⟨s.data.map (unicodeToLower caseTable)⟩

/-- Go `strings.HasPrefix`. -/
def HasPrefix (s pre : String) : Bool :=
  pre.data.isPrefixOf s.data

/-- Go `strings.Join`. -/
def Join : List String → String → String
  | [], _ => ""
  | [a], _ => a
  | a :: b :: rest, sep => a ++ sep ++ Join (b :: rest) sep

/-- What the handlers need of the case table: lowering a rune twice is
lowering it once, and no rune that is not white space is lowered to white
space. Both hold of the Unicode simple lower-case mapping. -/
def CaseTableOK (caseTable : Char → Char) : Prop :=
  ∀ r : Char, 0x7F < r.toNat →
    unicodeToLower caseTable (caseTable r) = caseTable r ∧
    (isSpace r = false → isSpace (caseTable r) = false)

/-- A fragment of the Unicode case table: the Latin-1 capitals `À..Þ` (without
`×`) and the Cyrillic capitals `А..Я` are shifted by 32, every other rune is
left alone. -/
def sampleCaseTable (r : Char) : Char :=
  if (0xC0 ≤ r.toNat ∧ r.toNat ≤ 0xDE ∧ r.toNat ≠ 0xD7) ∨
      (0x410 ≤ r.toNat ∧ r.toNat ≤ 0x42F) then
    Char.ofNat (r.toNat + 0x20)
  else r

/-! ## `map[string]string` -/

/-- A Go `map[string]string`: its entries, keys pairwise distinct. -/
abbrev GoMap := List (String × String)

/-- The lookup `v, ok := m[k]`: `some v` when `ok`. -/
def GoMap.get : GoMap → String → Option String
  | [], _ => none
  | (k', v) :: rest, k => if k' = k then some v else GoMap.get rest k

/-- The assignment `m[k] = v`: the entry of `k` is replaced, or added. -/
def GoMap.set : GoMap → String → String → GoMap
  | [], k, v => [(k, v)]
  | (k', v') :: rest, k, v =>
    if k' = k then (k, v) :: rest else (k', v') :: GoMap.set rest k v

/-- The keys of a map. -/
def GoMap.keys (m : GoMap) : List String := m.map Prod.fst

/-- The order in which `for k, v := range m` visits the entries of `m`: Go
leaves it unspecified, and visits every entry exactly once. -/
structure RangeOrder where
  visit : GoMap → List (String × String)
  perm : ∀ m, (visit m).Perm m

/-- The iteration that visits the entries as they are listed. -/
def RangeOrder.listed : RangeOrder := ⟨fun m => m, fun m => List.Perm.refl m⟩

/-- The iteration that visits the entries in the reverse order. -/
def RangeOrder.reversed : RangeOrder := ⟨fun m => m.reverse, fun m => List.reverse_perm m⟩

/-! ## Sessions and messages -/

/-- State constant `StateChoosing` (`iota` = 0). -/
def StateChoosing : Int := 0
/-- State constant `StateTypingReply` (`iota` = 1). -/
def StateTypingReply : Int := 1
/-- State constant `StateTypingChoice` (`iota` = 2). -/
def StateTypingChoice : Int := 2

/-- The struct `UserSession`. -/
structure UserSession where
  State : Int
  Data : GoMap
  PendingChoice : String
  deriving DecidableEq, Repr

/-- The `ReplyMarkup` field of an outgoing message: absent, a reply keyboard
(`tgbotapi.ReplyKeyboardMarkup`: rows of button labels and `OneTimeKeyboard`),
or `tgbotapi.ReplyKeyboardRemove{RemoveKeyboard: true}`. -/
inductive Markup where
  | none
  | keyboard (rows : List (List String)) (oneTime : Bool)
  | remove
  deriving DecidableEq, Repr

/-- An outgoing `tgbotapi.MessageConfig`, as passed to `Sender.Send`. -/
structure MessageConfig where
  ChatID : Int
  Text : String
  ReplyMarkup : Markup
  deriving DecidableEq, Repr

/-- `tgbotapi.NewMessage(chatID, text)`. -/
def NewMessage (chatID : Int) (text : String) : MessageConfig :=
  { ChatID := chatID, Text := text, ReplyMarkup := Markup.none }

/-- The session `SessionStore.Get` creates for an unseen user. -/
def newSession : UserSession :=
  { State := StateChoosing, Data := [], PendingChoice := "" }

/-! ## The handlers -/

/-- Function `factsToStr`. -/
def factsToStr (order : RangeOrder) (data : GoMap) : String :=
  if data.length = 0 then "\n\n"
  else
    let lines := (order.visit data).map (fun kv => kv.1 ++ " - " ++ kv.2)
    "\n" ++ Join lines "\n" ++ "\n"

/-- Function `makeKeyboard`. -/
def makeKeyboard : Markup :=
  Markup.keyboard
    [["Age", "Favourite colour"], ["Number of siblings", "Something else..."], ["Done"]]
    true

/-- Function `replyWithKeyboard`: the messages it sends. -/
def replyWithKeyboard (chatID : Int) (text : String) : List MessageConfig :=
  [{ NewMessage chatID text with ReplyMarkup := makeKeyboard }]

/-- Function `handleStart`. -/
def handleStart (order : RangeOrder) (chatID : Int) (sess : UserSession) :
    UserSession × List MessageConfig :=
  let reply := "Hi! My name is Doctor Botter."
  let reply :=
    if sess.Data.length > 0 then
      let keys := (order.visit sess.Data).map Prod.fst
      reply ++ (" You already told me your " ++ Join keys ", " ++
        ". Why don't you tell me something more about yourself? Or change anything I already know.")
    else
      reply ++ " I will hold a more complex conversation with you. Why don't you tell me something about yourself?"
  ({ sess with State := StateChoosing, PendingChoice := "" }, replyWithKeyboard chatID reply)

/-- Function `handleShowData`. -/
def handleShowData (order : RangeOrder) (chatID : Int) (sess : UserSession) :
    UserSession × List MessageConfig :=
  (sess, [NewMessage chatID ("This is what you already told me: " ++ factsToStr order sess.Data)])

/-- Function `handleDone`. -/
def handleDone (order : RangeOrder) (chatID : Int) (sess : UserSession) :
    UserSession × List MessageConfig :=
  let sess := { sess with PendingChoice := "", State := StateChoosing }
  let msg := NewMessage chatID
    ("I learned these facts about you: " ++ factsToStr order sess.Data ++ "Until next time!")
  (sess, [{ msg with ReplyMarkup := Markup.remove }])

/-- Function `handleCustomChoice`. -/
def handleCustomChoice (chatID : Int) (sess : UserSession) :
    UserSession × List MessageConfig :=
  ({ sess with State := StateTypingChoice },
    [NewMessage chatID
      "Alright, please send me the category first, for example \"Most impressive skill\""])

/-- The reply shared by `handleRegularChoice` and `handleCategoryName`: the
stored value is echoed when there is a non-empty one, else the user is invited. -/
def choiceReply (data : GoMap) (lc : String) : String :=
  match data.get lc with
  | some v =>
    if v ≠ "" then "Your " ++ lc ++ "? I already know the following about that: " ++ v
    else "Your " ++ lc ++ "? Yes, I would love to hear about that!"
  | none => "Your " ++ lc ++ "? Yes, I would love to hear about that!"

/-- Function `handleRegularChoice`. -/
def handleRegularChoice (caseTable : Char → Char) (chatID : Int) (sess : UserSession)
    (choice : String) : UserSession × List MessageConfig :=
  let lc := ToLower caseTable choice
  let sess := { sess with PendingChoice := lc, State := StateTypingReply }
  (sess, [NewMessage chatID (choiceReply sess.Data lc)])

/-- Function `handleCategoryName`. -/
def handleCategoryName (caseTable : Char → Char) (chatID : Int) (sess : UserSession)
    (category : String) : UserSession × List MessageConfig :=
  let lc := ToLower caseTable (TrimSpace category)
  if lc = "" then
    (sess, [NewMessage chatID "Please provide a non-empty category name."])
  else
    let sess := { sess with PendingChoice := lc, State := StateTypingReply }
    (sess, [NewMessage chatID (choiceReply sess.Data lc)])

/-- Function `handleReceivedInformation`. -/
def handleReceivedInformation (caseTable : Char → Char) (order : RangeOrder) (chatID : Int)
    (sess : UserSession) (value : String) : UserSession × List MessageConfig :=
  let val := ToLower caseTable (TrimSpace value)
  let category := sess.PendingChoice
  if category = "" then
    ({ sess with State := StateChoosing },
      replyWithKeyboard chatID "Let's start again. Please pick a category.")
  else
    let sess :=
      { sess with Data := sess.Data.set category val, PendingChoice := "",
                  State := StateChoosing }
    let msg := NewMessage chatID
      ("Neat! Just so you know, this is what you already told me:" ++
        factsToStr order sess.Data ++
        "You can tell me more, or change your opinion on something.")
    (sess, [{ msg with ReplyMarkup := makeKeyboard }])

/-! ## The dispatch of `main` -/

/-- The body of the update loop of `main` from `text := update.Message.Text`
on: the session it leaves and the messages it sends for one inbound text. -/
def dispatch (caseTable : Char → Char) (order : RangeOrder) (chatID : Int) (text : String)
    (sess : UserSession) : UserSession × List MessageConfig :=
  if text = "" then (sess, [])
  else if HasPrefix text "/start" then handleStart order chatID sess
  else if HasPrefix text "/show_data" then handleShowData order chatID sess
  else if text = "Done" then handleDone order chatID sess
  else if text = "Something else..." then handleCustomChoice chatID sess
  else if text = "Age" ∨ text = "Favourite colour" ∨ text = "Number of siblings" then
    handleRegularChoice caseTable chatID sess text
  else if sess.State = StateTypingChoice then handleCategoryName caseTable chatID sess text
  else if sess.State = StateTypingReply then
    handleReceivedInformation caseTable order chatID sess text
  else
    (sess, replyWithKeyboard chatID
      "Please pick an option or use 'Something else...' to add your own.")

/-- The dispatch applied to the inbound texts of one user in arrival order,
each with the iteration order the runtime picks while it is processed: the
final session and all messages sent. -/
def runTexts (caseTable : Char → Char) (chatID : Int) :
    UserSession → List (String × RangeOrder) → UserSession × List MessageConfig
  | sess, [] => (sess, [])
  | sess, (text, order) :: rest =>
    let r := dispatch caseTable order chatID text sess
    let r' := runTexts caseTable chatID r.1 rest
    (r'.1, r.2 ++ r'.2)

/-- The sessions the dispatch can reach from a freshly created session by a
finite sequence of non-empty inbound texts. -/
def Reachable (caseTable : Char → Char) (sess : UserSession) : Prop :=
  ∃ (chatID : Int) (inputs : List (String × RangeOrder)),
    (∀ e ∈ inputs, e.1 ≠ "") ∧ (runTexts caseTable chatID newSession inputs).1 = sess

/-! ## The session store and the update loop -/

/-- The field `sessions` of `SessionStore`, a `map[int64]*UserSession`: its
entries, keys pairwise distinct. `Get` is the only place that creates a
session pointer and it files each one under a single id, so no two entries
share a session and an entry holds the session itself; a write through the
pointer is the assignment `SessionStore.assign` under the id of the pointer.
The mutex `mu` has no effect on a sequential run and is not modelled. -/
abbrev SessionStore := List (Int × UserSession)

/-- Function `NewSessionStore`. -/
def NewSessionStore : SessionStore := []

/-- The lookup `sess, ok := s.sessions[userID]`: `some sess` when `ok`. -/
def SessionStore.lookup : SessionStore → Int → Option UserSession
  | [], _ => none
  | (id, sess) :: rest, userID =>
    if id = userID then some sess else SessionStore.lookup rest userID

/-- The assignment `s.sessions[userID] = sess`: the entry of `userID` is
replaced, or added. -/
def SessionStore.assign : SessionStore → Int → UserSession → SessionStore
  | [], userID, sess => [(userID, sess)]
  | (id, old) :: rest, userID, sess =>
    if id = userID then (userID, sess) :: rest
    else (id, old) :: SessionStore.assign rest userID sess

/-- Method `SessionStore.Get`: the session returned and the store left. -/
def SessionStore.Get (s : SessionStore) (userID : Int) : UserSession × SessionStore :=
  match s.lookup userID with
  | some sess => (sess, s)
  | none =>
    let ns : UserSession := { State := StateChoosing, Data := [], PendingChoice := "" }
    (ns, s.assign userID ns)

/-- The `Message` of an inbound `tgbotapi.Update`: the id of the sender
(`From`, which may be nil), the id of the chat and the text. -/
structure Message where
  From : Option Int
  ChatID : Int
  Text : String
  deriving DecidableEq, Repr

/-- The user id the loop of `main` files the session under: `From.ID`, or the
chat id when `From` is nil. -/
def userIDOf (m : Message) : Int :=
  match m.From with
  | some id => id
  | none => m.ChatID

/-- One pass of the update loop of `main` for an update whose `Message` is
`msg` (`none` for nil): the store left and the messages sent. The session is
fetched with `Get` before the text is looked at, and what the handlers write
through the pointer is written to the entry of the user. -/
def processUpdate (caseTable : Char → Char) (order : RangeOrder) (store : SessionStore) :
    Option Message → SessionStore × List MessageConfig
  | none => (store, [])
  | some m =>
    let userID := userIDOf m
    let g := store.Get userID
    let r := dispatch caseTable order m.ChatID m.Text g.1
    (g.2.assign userID r.1, r.2)

/-! ## Lemmas on strings and runes -/

theorem data_append (s t : String) : (s ++ t).data = s.data ++ t.data := rfl

theorem append_ne_empty (s t : String) (h : s.data ≠ []) : s ++ t ≠ "" := by
  intro he
  have h1 : (s ++ t).data = [] := by rw [he]
  rw [data_append] at h1
  exact h (List.append_eq_nil.mp h1).1

theorem toNat_ofNat_small (n : Nat) (h : n < 0xD800) : (Char.ofNat n).toNat = n := by
  have hv : n.isValidChar := Or.inl h
  simp only [Char.ofNat, hv, dite_true]
  simp [Char.ofNatAux, Char.toNat, UInt32.toNat]

theorem unicodeToLower_idem (caseTable : Char → Char) (ok : CaseTableOK caseTable) (r : Char) :
    unicodeToLower caseTable (unicodeToLower caseTable r) = unicodeToLower caseTable r := by
  by_cases h : r.toNat ≤ 0x7F
  · by_cases hu : 0x41 ≤ r.toNat ∧ r.toNat ≤ 0x5A
    · have e : unicodeToLower caseTable r = Char.ofNat (r.toNat + 0x20) := by
        simp [unicodeToLower, h, hu]
      have hn := toNat_ofNat_small (r.toNat + 0x20) (by omega)
      rw [e]
      have h1 : (Char.ofNat (r.toNat + 0x20)).toNat ≤ 0x7F := by omega
      have h2 : ¬ (0x41 ≤ (Char.ofNat (r.toNat + 0x20)).toNat ∧
          (Char.ofNat (r.toNat + 0x20)).toNat ≤ 0x5A) := by omega
      simp only [unicodeToLower, h1, h2, if_true, if_false]
    · have e : unicodeToLower caseTable r = r := by
        simp only [unicodeToLower, h, hu, if_true, if_false]
      rw [e, e]
  · have e : unicodeToLower caseTable r = caseTable r := by
      simp only [unicodeToLower, h, if_false]
    rw [e]
    exact (ok r (by omega)).1

theorem isSpace_iff (r : Char) : isSpace r = true ↔
    ((0x09 ≤ r.toNat ∧ r.toNat ≤ 0x0D) ∨ r.toNat = 0x20 ∨ r.toNat = 0x85 ∨ r.toNat = 0xA0 ∨
      r.toNat = 0x1680 ∨ (0x2000 ≤ r.toNat ∧ r.toNat ≤ 0x200A) ∨ r.toNat = 0x2028 ∨
      r.toNat = 0x2029 ∨ r.toNat = 0x202F ∨ r.toNat = 0x205F ∨ r.toNat = 0x3000) := by
  simp [isSpace, or_assoc]

theorem unicodeToLower_not_space (caseTable : Char → Char) (ok : CaseTableOK caseTable)
    (r : Char) (hr : isSpace r = false) : isSpace (unicodeToLower caseTable r) = false := by
  by_cases h : r.toNat ≤ 0x7F
  · by_cases hu : 0x41 ≤ r.toNat ∧ r.toNat ≤ 0x5A
    · have e : unicodeToLower caseTable r = Char.ofNat (r.toNat + 0x20) := by
        simp [unicodeToLower, h, hu]
      have hn := toNat_ofNat_small (r.toNat + 0x20) (by omega)
      rw [e, Bool.eq_false_iff]
      intro hs
      rw [isSpace_iff] at hs
      omega
    · have e : unicodeToLower caseTable r = r := by
        simp only [unicodeToLower, h, hu, if_true, if_false]
      rw [e]; exact hr
  · have e : unicodeToLower caseTable r = caseTable r := by
      simp only [unicodeToLower, h, if_false]
    rw [e]
    exact (ok r (by omega)).2 hr

theorem ToLower_idem (caseTable : Char → Char) (ok : CaseTableOK caseTable) (s : String) :
    ToLower caseTable (ToLower caseTable s) = ToLower caseTable s := by
  simp only [ToLower, List.map_map]
  congr 1
  apply List.map_congr_left
  intro r _
  exact unicodeToLower_idem caseTable ok r

theorem ToLower_eq_empty (caseTable : Char → Char) (s : String) :
    ToLower caseTable s = "" ↔ s = "" := by
  constructor
  · intro h
    have h1 : (ToLower caseTable s).data = [] := by rw [h]
    simp only [ToLower, List.map_eq_nil_iff] at h1
    exact String.ext h1
  · intro h; rw [h]; rfl

/-- A list of runes with no white space at either end. -/
def TrimmedL (l : List Char) : Prop :=
  (∀ c, l.head? = some c → isSpace c = false) ∧ (∀ c, l.getLast? = some c → isSpace c = false)

theorem trimmedL_trim (l : List Char) :
    TrimmedL ((l.dropWhile isSpace).rdropWhile isSpace) := by
  constructor
  · intro c hc
    obtain ⟨t, ht⟩ := List.rdropWhile_prefix isSpace (l := l.dropWhile isSpace)
    cases hd : (l.dropWhile isSpace).rdropWhile isSpace with
    | nil => rw [hd] at hc; simp at hc
    | cons a rest =>
      rw [hd] at hc ht
      simp only [List.head?_cons, Option.some.injEq] at hc
      have h1 := List.head?_dropWhile_not isSpace l
      rw [← ht] at h1
      simp only [List.cons_append, List.head?_cons] at h1
      subst hc
      simpa using h1
  · intro c hc
    cases hd : (l.dropWhile isSpace).rdropWhile isSpace with
    | nil => rw [hd] at hc; simp at hc
    | cons a rest =>
      have hne : (l.dropWhile isSpace).rdropWhile isSpace ≠ [] := by rw [hd]; simp
      have h1 := List.rdropWhile_last_not isSpace (l.dropWhile isSpace) hne
      rw [List.getLast?_eq_getLast _ hne] at hc
      simp only [Option.some.injEq] at hc
      rw [hc] at h1
      simpa using h1

theorem trim_of_trimmedL (l : List Char) (h : TrimmedL l) :
    (l.dropWhile isSpace).rdropWhile isSpace = l := by
  have h1 : l.dropWhile isSpace = l := by
    cases l with
    | nil => rfl
    | cons a rest =>
      have := h.1 a (by simp)
      simp [List.dropWhile, this]
  rw [h1, List.rdropWhile_eq_self_iff]
  intro hl
  have := h.2 (l.getLast hl) (List.getLast?_eq_getLast _ hl)
  simp [this]

theorem trimmedL_map (f : Char → Char) (hf : ∀ c, isSpace c = false → isSpace (f c) = false)
    (l : List Char) (h : TrimmedL l) : TrimmedL (l.map f) := by
  constructor
  · intro c hc
    rw [List.head?_map] at hc
    cases hh : l.head? with
    | none => rw [hh] at hc; simp at hc
    | some a =>
      rw [hh] at hc
      simp only [Option.map_some', Option.some.injEq] at hc
      rw [← hc]; exact hf a (h.1 a hh)
  · intro c hc
    rw [List.getLast?_map] at hc
    cases hh : l.getLast? with
    | none => rw [hh] at hc; simp at hc
    | some a =>
      rw [hh] at hc
      simp only [Option.map_some', Option.some.injEq] at hc
      rw [← hc]; exact hf a (h.2 a hh)

theorem TrimSpace_ToLower_TrimSpace (caseTable : Char → Char) (ok : CaseTableOK caseTable)
    (t : String) :
    TrimSpace (ToLower caseTable (TrimSpace t)) = ToLower caseTable (TrimSpace t) := by
  have h := trimmedL_map (unicodeToLower caseTable) (unicodeToLower_not_space caseTable ok) _
    (trimmedL_trim t.data)
  have h2 := trim_of_trimmedL _ h
  show String.mk _ = String.mk _
  congr 1

/-! ## Lemmas on maps -/

theorem GoMap.get_set_same (m : GoMap) (k v : String) : (m.set k v).get k = some v := by
  induction m with
  | nil => simp [GoMap.set, GoMap.get]
  | cons e rest ih =>
    obtain ⟨k', v'⟩ := e
    by_cases h : k' = k
    · simp [GoMap.set, GoMap.get, h]
    · simp [GoMap.set, GoMap.get, h, ih]

theorem GoMap.get_set_other (m : GoMap) (k v k' : String) (hk : k' ≠ k) :
    (m.set k v).get k' = m.get k' := by
  induction m with
  | nil => simp [GoMap.set, GoMap.get, Ne.symm hk]
  | cons e rest ih =>
    obtain ⟨k0, v0⟩ := e
    by_cases h : k0 = k
    · subst h
      simp [GoMap.set, GoMap.get, Ne.symm hk]
    · by_cases h' : k0 = k'
      · subst h'
        simp [GoMap.set, GoMap.get, h]
      · simp [GoMap.set, GoMap.get, h, h', ih]

theorem GoMap.mem_set (m : GoMap) (k v : String) (e : String × String)
    (he : e ∈ m.set k v) : e ∈ m ∨ e = (k, v) := by
  induction m with
  | nil => right; simpa [GoMap.set] using he
  | cons e0 rest ih =>
    obtain ⟨k0, v0⟩ := e0
    by_cases h : k0 = k
    · simp only [GoMap.set, h, if_true, List.mem_cons] at he
      rcases he with he | he
      · right; exact he
      · left; exact List.mem_cons_of_mem _ he
    · simp only [GoMap.set, h, if_false, List.mem_cons] at he
      rcases he with he | he
      · left; rw [he]; exact List.mem_cons_self _ _
      · rcases ih he with h1 | h1
        · left; exact List.mem_cons_of_mem _ h1
        · right; exact h1

theorem GoMap.mem_set_self (m : GoMap) (k v : String) : (k, v) ∈ m.set k v := by
  induction m with
  | nil => simp [GoMap.set]
  | cons e rest ih =>
    obtain ⟨k0, v0⟩ := e
    by_cases h : k0 = k
    · simp [GoMap.set, h]
    · simp only [GoMap.set, h, if_false]
      exact List.mem_cons_of_mem _ ih

theorem GoMap.length_set_le (m : GoMap) (k v : String) : (m.set k v).length ≤ m.length + 1 := by
  induction m with
  | nil => simp [GoMap.set]
  | cons e rest ih =>
    obtain ⟨k0, v0⟩ := e
    by_cases h : k0 = k
    · simp [GoMap.set, h]
    · simp only [GoMap.set, h, if_false, List.length_cons]
      omega

theorem GoMap.get_isSome_set (m : GoMap) (k v k' : String) (h : (m.get k').isSome) :
    ((m.set k v).get k').isSome := by
  by_cases hk : k' = k
  · subst hk
    rw [GoMap.get_set_same]; rfl
  · rw [GoMap.get_set_other m k v k' hk]; exact h

theorem SessionStore.lookup_assign_same (s : SessionStore) (id : Int) (sess : UserSession) :
    (s.assign id sess).lookup id = some sess := by
  induction s with
  | nil => simp [SessionStore.assign, SessionStore.lookup]
  | cons e rest ih =>
    obtain ⟨id0, s0⟩ := e
    by_cases h : id0 = id
    · simp [SessionStore.assign, SessionStore.lookup, h]
    · simp [SessionStore.assign, SessionStore.lookup, h, ih]

theorem SessionStore.lookup_assign_other (s : SessionStore) (id id' : Int) (sess : UserSession)
    (hne : id' ≠ id) : (s.assign id sess).lookup id' = s.lookup id' := by
  induction s with
  | nil => simp [SessionStore.assign, SessionStore.lookup, Ne.symm hne]
  | cons e rest ih =>
    obtain ⟨id0, s0⟩ := e
    by_cases h : id0 = id
    · subst h
      simp [SessionStore.assign, SessionStore.lookup, Ne.symm hne]
    · by_cases h' : id0 = id'
      · subst h'
        simp [SessionStore.assign, SessionStore.lookup, h]
      · simp [SessionStore.assign, SessionStore.lookup, h, h', ih]

theorem SessionStore.Get_found (s : SessionStore) (id : Int) (sess : UserSession)
    (h : s.lookup id = some sess) : s.Get id = (sess, s) := by
  simp only [SessionStore.Get, h]

theorem SessionStore.Get_fresh (s : SessionStore) (id : Int) (h : s.lookup id = none) :
    s.Get id = (newSession, s.assign id newSession) := by
  simp only [SessionStore.Get, h]
  rfl

theorem SessionStore.lookup_Get_same (s : SessionStore) (id : Int) :
    (s.Get id).2.lookup id = some (s.Get id).1 := by
  cases h : s.lookup id with
  | none => rw [SessionStore.Get_fresh s id h]; exact SessionStore.lookup_assign_same _ _ _
  | some sess => rw [SessionStore.Get_found s id sess h]; exact h

theorem SessionStore.lookup_Get_other (s : SessionStore) (id id' : Int) (hne : id' ≠ id) :
    (s.Get id).2.lookup id' = s.lookup id' := by
  cases h : s.lookup id with
  | none =>
    rw [SessionStore.Get_fresh s id h]
    exact SessionStore.lookup_assign_other _ _ _ _ hne
  | some sess => rw [SessionStore.Get_found s id sess h]

/-! ## Lemmas on the dispatch -/

/-- The nudge sent for free text outside the two typing states. -/
def nudge (chatID : Int) : List MessageConfig :=
  replyWithKeyboard chatID "Please pick an option or use 'Something else...' to add your own."

theorem dispatch_cases (caseTable : Char → Char) (order : RangeOrder) (chatID : Int)
    (text : String) (sess : UserSession) (h : text ≠ "") :
    (HasPrefix text "/start" = true ∧
      dispatch caseTable order chatID text sess = handleStart order chatID sess) ∨
    (HasPrefix text "/show_data" = true ∧
      dispatch caseTable order chatID text sess = handleShowData order chatID sess) ∨
    (text = "Done" ∧
      dispatch caseTable order chatID text sess = handleDone order chatID sess) ∨
    (text = "Something else..." ∧
      dispatch caseTable order chatID text sess = handleCustomChoice chatID sess) ∨
    ((text = "Age" ∨ text = "Favourite colour" ∨ text = "Number of siblings") ∧
      dispatch caseTable order chatID text sess
        = handleRegularChoice caseTable chatID sess text) ∨
    (sess.State = StateTypingChoice ∧
      dispatch caseTable order chatID text sess
        = handleCategoryName caseTable chatID sess text) ∨
    (sess.State = StateTypingReply ∧
      dispatch caseTable order chatID text sess
        = handleReceivedInformation caseTable order chatID sess text) ∨
    ((sess.State ≠ StateTypingChoice ∧ sess.State ≠ StateTypingReply) ∧
      dispatch caseTable order chatID text sess = (sess, nudge chatID)) := by
  unfold dispatch nudge
  split_ifs <;> simp_all

theorem runTexts_invariant (caseTable : Char → Char) (chatID : Int) (Inv : UserSession → Prop)
    (hstep : ∀ order text s, text ≠ "" → Inv s →
      Inv (dispatch caseTable order chatID text s).1) :
    ∀ (inputs : List (String × RangeOrder)) (s : UserSession), Inv s →
      (∀ e ∈ inputs, e.1 ≠ "") → Inv (runTexts caseTable chatID s inputs).1 := by
  intro inputs
  induction inputs with
  | nil => intro s hs _; exact hs
  | cons e rest ih =>
    intro s hs hne
    obtain ⟨text, order⟩ := e
    simp only [runTexts]
    apply ih
    · exact hstep order text s (hne (text, order) (List.mem_cons_self _ _)) hs
    · intro e he; exact hne e (List.mem_cons_of_mem _ he)

theorem label_lower_ne_empty (caseTable : Char → Char) (text : String)
    (h : text = "Age" ∨ text = "Favourite colour" ∨ text = "Number of siblings") :
    ToLower caseTable text ≠ "" := by
  intro he
  rw [ToLower_eq_empty] at he
  subst he
  revert h
  decide

/-- The relation between `State` and `PendingChoice` that every transition keeps. -/
def PendingInv (s : UserSession) : Prop :=
  (s.State = StateTypingReply → s.PendingChoice ≠ "") ∧
  (s.PendingChoice ≠ "" → s.State = StateTypingReply ∨ s.State = StateTypingChoice)

theorem dispatch_pendingInv (caseTable : Char → Char) (order : RangeOrder) (chatID : Int)
    (text : String) (s : UserSession) (h : text ≠ "") (hs : PendingInv s) :
    PendingInv (dispatch caseTable order chatID text s).1 := by
  rcases dispatch_cases caseTable order chatID text s h with
    ⟨_, e⟩ | ⟨_, e⟩ | ⟨_, e⟩ | ⟨_, e⟩ | ⟨hl, e⟩ | ⟨_, e⟩ | ⟨_, e⟩ | ⟨_, e⟩ <;> rw [e]
  · simp [handleStart, PendingInv, StateChoosing, StateTypingReply]
  · exact hs
  · simp [handleDone, PendingInv, StateChoosing, StateTypingReply]
  · simp [handleCustomChoice, PendingInv, StateTypingChoice, StateTypingReply]
  · have := label_lower_ne_empty caseTable text hl
    simp [handleRegularChoice, PendingInv, this]
  · unfold handleCategoryName
    by_cases hc : ToLower caseTable (TrimSpace text) = ""
    · simp only [hc, if_true]; exact hs
    · simp [hc, PendingInv]
  · unfold handleReceivedInformation
    by_cases hc : s.PendingChoice = ""
    · simp [hc, PendingInv, StateChoosing, StateTypingReply]
    · simp [hc, PendingInv, StateChoosing, StateTypingReply]
  · exact hs

/-! ## Lemmas on message texts -/

theorem head?_lit_append (c : Char) (cs : List Char) (t : String) :
    (String.mk (c :: cs) ++ t).data.head? = some c := rfl

theorem getLast?_append_newline (s : String) : (s ++ "\n").data.getLast? = some '\n' := by
  rw [data_append]
  exact List.getLast?_concat _

theorem visit_singleton (order : RangeOrder) (e : String × String) : order.visit [e] = [e] :=
  List.perm_singleton.mp (order.perm [e])

theorem factsToStr_age_25 (order : RangeOrder) :
    factsToStr order [("age", "25")] = "\nage - 25\n" := by
  have h1 : ¬ ([("age", "25")] : GoMap).length = 0 := by decide
  simp only [factsToStr, h1, if_false, visit_singleton, List.map, Join]
  rfl

theorem infix_Join (sep : String) (k : String) :
    ∀ keys : List String, k ∈ keys → k.data <:+: (Join keys sep).data
  | [], h => by simp at h
  | [a], h => by
    simp only [List.mem_singleton] at h
    subst h
    exact List.infix_refl _
  | a :: b :: rest, h => by
    simp only [Join, data_append]
    rcases List.mem_cons.mp h with h1 | h1
    · subst h1
      rw [List.append_assoc]
      exact (List.prefix_append _ _).isInfix
    · exact (infix_Join sep k (b :: rest) h1).trans (List.suffix_append _ _).isInfix

theorem lit_ne_empty (c : Char) (cs : List Char) : String.mk (c :: cs) ≠ "" := by
  intro h
  have h1 : (String.mk (c :: cs)).data = [] := by rw [h]
  exact List.cons_ne_nil c cs h1

theorem handleCategoryName_empty (caseTable : Char → Char) (chatID : Int) (sess : UserSession)
    (category : String) (h : ToLower caseTable (TrimSpace category) = "") :
    handleCategoryName caseTable chatID sess category
      = (sess, [NewMessage chatID "Please provide a non-empty category name."]) := by
  simp only [handleCategoryName, h, if_true]

theorem handleCategoryName_named (caseTable : Char → Char) (chatID : Int) (sess : UserSession)
    (category : String) (h : ToLower caseTable (TrimSpace category) ≠ "") :
    handleCategoryName caseTable chatID sess category
      = (⟨StateTypingReply, sess.Data, ToLower caseTable (TrimSpace category)⟩,
          [NewMessage chatID (choiceReply sess.Data (ToLower caseTable (TrimSpace category)))]) := by
  simp only [handleCategoryName, h, if_false]

theorem handleReceivedInformation_restart (caseTable : Char → Char) (order : RangeOrder)
    (chatID : Int) (sess : UserSession) (value : String) (h : sess.PendingChoice = "") :
    handleReceivedInformation caseTable order chatID sess value
      = (⟨StateChoosing, sess.Data, sess.PendingChoice⟩,
          replyWithKeyboard chatID "Let's start again. Please pick a category.") := by
  simp only [handleReceivedInformation, h, if_true]

theorem handleReceivedInformation_store (caseTable : Char → Char) (order : RangeOrder)
    (chatID : Int) (sess : UserSession) (value : String) (h : sess.PendingChoice ≠ "") :
    handleReceivedInformation caseTable order chatID sess value
      = (⟨StateChoosing,
            sess.Data.set sess.PendingChoice (ToLower caseTable (TrimSpace value)), ""⟩,
          [⟨chatID,
            "Neat! Just so you know, this is what you already told me:" ++
              factsToStr order
                (sess.Data.set sess.PendingChoice (ToLower caseTable (TrimSpace value))) ++
              "You can tell me more, or change your opinion on something.",
            makeKeyboard⟩]) := by
  simp only [handleReceivedInformation, h, if_false]
  rfl

theorem choiceReply_ne_empty (data : GoMap) (lc : String) : choiceReply data lc ≠ "" := by
  unfold choiceReply
  split
  · split_ifs
    · rw [String.append_assoc, String.append_assoc]; exact append_ne_empty _ _ (by decide)
    · rw [String.append_assoc]; exact append_ne_empty _ _ (by decide)
  · rw [String.append_assoc]; exact append_ne_empty _ _ (by decide)

theorem choiceReply_contains (data : GoMap) (lc v : String) (h : data.get lc = some v) :
    v.data <:+: (choiceReply data lc).data := by
  unfold choiceReply
  rw [h]
  by_cases hv : v = ""
  · subst hv
    exact ⟨[], _, rfl⟩
  · simp only [ne_eq, hv, not_false_eq_true, if_true, data_append]
    exact (List.suffix_append _ _).isInfix

theorem text_ne_of_head (s t : String) (c d : Char) (hs : s.data.head? = some c)
    (ht : t.data.head? = some d) (h : c ≠ d) : s ≠ t := by
  intro e
  rw [e, ht] at hs
  exact h (Option.some.inj hs).symm

theorem choiceReply_head (data : GoMap) (lc : String) :
    (choiceReply data lc).data.head? = some 'Y' := by
  unfold choiceReply
  split
  · split_ifs
    · rw [String.append_assoc, String.append_assoc]; rfl
    · rw [String.append_assoc]; rfl
  · rw [String.append_assoc]; rfl

theorem handleStart_head (order : RangeOrder) (chatID : Int) (sess : UserSession) :
    ∀ m ∈ (handleStart order chatID sess).2, m.Text.data.head? = some 'H' := by
  intro m hm
  simp only [handleStart, replyWithKeyboard, NewMessage, List.mem_singleton] at hm
  subst hm
  show (if _ then _ else _ : String).data.head? = some 'H'
  split_ifs <;> rfl

theorem hasPrefix_iff (s pre : String) : HasPrefix s pre = true ↔ pre.data <+: s.data := by
  unfold HasPrefix
  exact List.isPrefixOf_iff_prefix

theorem hasPrefix_ne_empty (s : String) (c : Char) (cs : List Char)
    (h : HasPrefix s (String.mk (c :: cs)) = true) : s ≠ "" := by
  intro e
  subst e
  rw [hasPrefix_iff] at h
  obtain ⟨t, ht⟩ := h
  simp at ht

theorem show_data_not_start (s : String) (h : HasPrefix s "/show_data" = true) :
    HasPrefix s "/start" = false := by
  rw [hasPrefix_iff] at h
  obtain ⟨t, ht⟩ := h
  unfold HasPrefix
  rw [← ht]
  rfl

theorem dispatch_start (caseTable : Char → Char) (order : RangeOrder) (chatID : Int)
    (text : String) (sess : UserSession) (h : HasPrefix text "/start" = true) :
    dispatch caseTable order chatID text sess = handleStart order chatID sess := by
  have hne : text ≠ "" := hasPrefix_ne_empty text _ _ h
  simp only [dispatch, hne, h, if_false, if_true]

theorem dispatch_show_data (caseTable : Char → Char) (order : RangeOrder) (chatID : Int)
    (text : String) (sess : UserSession) (h : HasPrefix text "/show_data" = true) :
    dispatch caseTable order chatID text sess = handleShowData order chatID sess := by
  have hne : text ≠ "" := hasPrefix_ne_empty text _ _ h
  have hns := show_data_not_start text h
  simp only [dispatch, hne, h, hns, if_false, if_true, Bool.false_eq_true]

theorem mem_keys_visit (order : RangeOrder) (m : GoMap) (k : String) (h : k ∈ m.keys) :
    k ∈ (order.visit m).map Prod.fst :=
  (((order.perm m).map Prod.fst).mem_iff).mpr h

theorem dispatch_label (caseTable : Char → Char) (order : RangeOrder) (chatID : Int)
    (text : String) (sess : UserSession)
    (hl : text = "Age" ∨ text = "Favourite colour" ∨ text = "Number of siblings") :
    dispatch caseTable order chatID text sess
      = handleRegularChoice caseTable chatID sess text := by
  rcases hl with h | h | h <;> subst h <;> rfl

theorem dispatch_typingReply_free (caseTable : Char → Char) (order : RangeOrder) (chatID : Int)
    (text : String) (sess : UserSession) (hs : sess.State = StateTypingReply) (ht : text ≠ "")
    (hfree : HasPrefix text "/start" = false ∧ HasPrefix text "/show_data" = false ∧
      text ≠ "Done" ∧ text ≠ "Something else..." ∧ text ≠ "Age" ∧
      text ≠ "Favourite colour" ∧ text ≠ "Number of siblings") :
    dispatch caseTable order chatID text sess
      = handleReceivedInformation caseTable order chatID sess text := by
  obtain ⟨hc1, hc2, h1, h2, h3, h4, h5⟩ := hfree
  have hd : StateTypingReply ≠ StateTypingChoice := by decide
  simp only [dispatch, ht, hc1, hc2, h1, h2, h3, h4, h5, hs, hd, if_false, if_true, or_self,
    Bool.false_eq_true]

/-- A command or a menu label leaves `Data` as it was, and the single reply
does not begin like the confirmation of a stored value. -/
theorem dispatch_fixed_input (caseTable : Char → Char) (order : RangeOrder) (chatID : Int)
    (text : String) (sess : UserSession)
    (h : HasPrefix text "/start" = true ∨ HasPrefix text "/show_data" = true ∨
      text = "Done" ∨ text = "Something else..." ∨ text = "Age" ∨
      text = "Favourite colour" ∨ text = "Number of siblings") :
    (dispatch caseTable order chatID text sess).1.Data = sess.Data ∧
    ∃ (m : MessageConfig) (c : Char),
      (dispatch caseTable order chatID text sess).2 = [m] ∧
      m.Text.data.head? = some c ∧ c ≠ 'N' := by
  rcases h with h | h | h | h | h
  · rw [dispatch_start caseTable order chatID text sess h]
    exact ⟨rfl, _, 'H', rfl,
      handleStart_head order chatID sess _ (List.mem_singleton.mpr rfl), by decide⟩
  · rw [dispatch_show_data caseTable order chatID text sess h]
    exact ⟨rfl, _, 'T', rfl, rfl, by decide⟩
  · subst h
    refine ⟨rfl, _, 'I', rfl, ?_, by decide⟩
    show (_ ++ _ ++ _ : String).data.head? = _
    rw [String.append_assoc]; rfl
  · subst h
    exact ⟨rfl, _, 'A', rfl, rfl, by decide⟩
  · rw [dispatch_label caseTable order chatID text sess h]
    exact ⟨rfl, _, 'Y', rfl, choiceReply_head _ _, by decide⟩

theorem handleStart_lists_key (order : RangeOrder) (chatID : Int) (sess : UserSession)
    (k : String) (hk : k ∈ sess.Data.keys) :
    ∃ m : MessageConfig, (handleStart order chatID sess).2 = [m] ∧ k.data <:+: m.Text.data := by
  refine ⟨_, rfl, ?_⟩
  have hlen : sess.Data.length > 0 := by
    cases hd : sess.Data with
    | nil => rw [hd] at hk; simp [GoMap.keys] at hk
    | cons a rest => simp
  show _ <:+: (if _ then _ else _ : String).data
  rw [if_pos hlen]
  simp only [data_append]
  have h1 := infix_Join ", " k _ (mem_keys_visit order sess.Data k hk)
  exact h1.trans (((List.suffix_append _ _).isInfix.trans
    (List.prefix_append _ _).isInfix).trans (List.suffix_append _ _).isInfix)

theorem factsToStr_lists_entry (order : RangeOrder) (data : GoMap) (kv : String × String)
    (h : kv ∈ data) : (kv.1 ++ " - " ++ kv.2).data <:+: (factsToStr order data).data := by
  have hlen : ¬ data.length = 0 := by
    intro h0
    rw [List.length_eq_zero.mp h0] at h
    cases h
  have hmem : kv.1 ++ " - " ++ kv.2 ∈ (order.visit data).map (fun e => e.1 ++ " - " ++ e.2) :=
    List.mem_map_of_mem _ (((order.perm data).mem_iff).mpr h)
  have h1 := infix_Join "\n" _ _ hmem
  simp only [factsToStr, hlen, if_false, data_append]
  exact h1.trans ((List.suffix_append _ _).isInfix.trans (List.prefix_append _ _).isInfix)

theorem choiceReply_empty_value (data : GoMap) (lc : String) (h : data.get lc = some "") :
    choiceReply data lc = "Your " ++ lc ++ "? Yes, I would love to hear about that!" := by
  unfold choiceReply
  rw [h]
  simp

theorem SessionStore.Get_fst (s : SessionStore) (id : Int) :
    (s.Get id).1 = (s.lookup id).getD newSession := by
  cases h : s.lookup id with
  | none => rw [SessionStore.Get_fresh s id h]; rfl
  | some sess => rw [SessionStore.Get_found s id sess h]; rfl

/-! ## Normal form of the stored facts -/

/-- A string that `ToLower` and `TrimSpace` leave unchanged. -/
def NormalStr (caseTable : Char → Char) (x : String) : Prop :=
  ToLower caseTable x = x ∧ TrimSpace x = x

/-- The facts and the pending category are in normal form. -/
def NormalInv (caseTable : Char → Char) (s : UserSession) : Prop :=
  (∀ kv ∈ s.Data, NormalStr caseTable kv.1 ∧ NormalStr caseTable kv.2) ∧
  NormalStr caseTable s.PendingChoice

theorem normalStr_empty (caseTable : Char → Char) : NormalStr caseTable "" :=
  ⟨rfl, by decide⟩

theorem normalStr_lower_trim (caseTable : Char → Char) (ok : CaseTableOK caseTable)
    (t : String) : NormalStr caseTable (ToLower caseTable (TrimSpace t)) :=
  ⟨ToLower_idem caseTable ok _, TrimSpace_ToLower_TrimSpace caseTable ok t⟩

theorem normalStr_label (caseTable : Char → Char) (text : String)
    (h : text = "Age" ∨ text = "Favourite colour" ∨ text = "Number of siblings") :
    NormalStr caseTable (ToLower caseTable text) := by
  rcases h with h | h | h <;> subst h
  · have e : ToLower caseTable "Age" = "age" := rfl
    rw [e]; exact ⟨rfl, by decide⟩
  · have e : ToLower caseTable "Favourite colour" = "favourite colour" := rfl
    rw [e]; exact ⟨rfl, by decide⟩
  · have e : ToLower caseTable "Number of siblings" = "number of siblings" := rfl
    rw [e]; exact ⟨rfl, by decide⟩

theorem dispatch_normalInv (caseTable : Char → Char) (ok : CaseTableOK caseTable)
    (order : RangeOrder) (chatID : Int) (text : String) (s : UserSession) (h : text ≠ "")
    (hs : NormalInv caseTable s) :
    NormalInv caseTable (dispatch caseTable order chatID text s).1 := by
  rcases dispatch_cases caseTable order chatID text s h with
    ⟨_, e⟩ | ⟨_, e⟩ | ⟨_, e⟩ | ⟨_, e⟩ | ⟨hl, e⟩ | ⟨_, e⟩ | ⟨_, e⟩ | ⟨_, e⟩ <;> rw [e]
  · exact ⟨hs.1, normalStr_empty caseTable⟩
  · exact hs
  · exact ⟨hs.1, normalStr_empty caseTable⟩
  · exact hs
  · exact ⟨hs.1, normalStr_label caseTable text hl⟩
  · by_cases hc : ToLower caseTable (TrimSpace text) = ""
    · rw [handleCategoryName_empty _ _ _ _ hc]; exact hs
    · rw [handleCategoryName_named _ _ _ _ hc]
      exact ⟨hs.1, normalStr_lower_trim caseTable ok text⟩
  · by_cases hc : s.PendingChoice = ""
    · rw [handleReceivedInformation_restart _ _ _ _ _ hc]; exact hs
    · rw [handleReceivedInformation_store _ _ _ _ _ hc]
      refine ⟨?_, normalStr_empty caseTable⟩
      intro kv hkv
      rcases GoMap.mem_set _ _ _ kv hkv with h1 | h1
      · exact hs.1 kv h1
      · subst h1
        exact ⟨hs.2, normalStr_lower_trim caseTable ok text⟩
  · exact hs

theorem sampleCaseTable_ok : CaseTableOK sampleCaseTable := by
  intro r hr
  by_cases hc : (0xC0 ≤ r.toNat ∧ r.toNat ≤ 0xDE ∧ r.toNat ≠ 0xD7) ∨
      (0x410 ≤ r.toNat ∧ r.toNat ≤ 0x42F)
  · have e : sampleCaseTable r = Char.ofNat (r.toNat + 0x20) := by
      simp only [sampleCaseTable, hc, if_true]
    have hn := toNat_ofNat_small (r.toNat + 0x20) (by omega)
    rw [e]
    have h1 : ¬ (Char.ofNat (r.toNat + 0x20)).toNat ≤ 0x7F := by omega
    have h2 : ¬ ((0xC0 ≤ (Char.ofNat (r.toNat + 0x20)).toNat ∧
        (Char.ofNat (r.toNat + 0x20)).toNat ≤ 0xDE ∧
        (Char.ofNat (r.toNat + 0x20)).toNat ≠ 0xD7) ∨
        (0x410 ≤ (Char.ofNat (r.toNat + 0x20)).toNat ∧
          (Char.ofNat (r.toNat + 0x20)).toNat ≤ 0x42F)) := by omega
    constructor
    · simp only [unicodeToLower, h1, if_false]
      simp only [sampleCaseTable, h2, if_false]
    · intro _
      rw [Bool.eq_false_iff]
      intro hsp
      rw [isSpace_iff] at hsp
      omega
  · have e : sampleCaseTable r = r := by
      simp only [sampleCaseTable, hc, if_false]
    rw [e]
    have h1 : ¬ r.toNat ≤ 0x7F := by omega
    exact ⟨by simp only [unicodeToLower, h1, if_false]; exact e, fun h => h⟩

/-! ## The free-text transition in `StateTypingReply` -/

/-- C1: for a session whose `PendingChoice` p is non-empty and any text t,
`handleReceivedInformation` leaves `Data[p]` equal to `ToLower(TrimSpace(t))`,
`PendingChoice` empty and `State` equal to `StateChoosing`; pending
"most impressive skill" with text "Golang" stores "golang", and pending "age"
with text "25" stores "25" (whatever the state and the data were). -/
theorem handleReceivedInformation_stores (caseTable : Char → Char) (order : RangeOrder)
    (chatID : Int) (sess : UserSession) (t : String) (hp : sess.PendingChoice ≠ "") :
    ((handleReceivedInformation caseTable order chatID sess t).1.Data.get sess.PendingChoice
        = some (ToLower caseTable (TrimSpace t)) ∧
      (handleReceivedInformation caseTable order chatID sess t).1.PendingChoice = "" ∧
      (handleReceivedInformation caseTable order chatID sess t).1.State = StateChoosing) ∧
    (handleReceivedInformation caseTable order chatID
        ⟨sess.State, sess.Data, "most impressive skill"⟩ "Golang").1.Data.get
          "most impressive skill" = some "golang" ∧
    (handleReceivedInformation caseTable order chatID
        ⟨sess.State, sess.Data, "age"⟩ "25").1.Data.get "age" = some "25" := by
  refine ⟨?_, ?_, ?_⟩
  · simp [handleReceivedInformation, hp, GoMap.get_set_same]
  · have h : ("most impressive skill" : String) ≠ "" := by decide
    simp only [handleReceivedInformation, h, if_false]
    rw [GoMap.get_set_same]
    rfl
  · have h : ("age" : String) ≠ "" := by decide
    simp only [handleReceivedInformation, h, if_false]
    rw [GoMap.get_set_same]
    rfl

/-- C1, at the session of `TestFlow_CustomCategory` with the text " GoLang ". -/
theorem handleReceivedInformation_stores_witness :
    (⟨StateTypingReply, [("age", "25")], "most impressive skill"⟩ : UserSession).PendingChoice ≠ ""
    ∧ (handleReceivedInformation sampleCaseTable RangeOrder.listed 1
        ⟨StateTypingReply, [("age", "25")], "most impressive skill"⟩ " GoLang ").1.Data.get
          "most impressive skill" = some (ToLower sampleCaseTable (TrimSpace " GoLang "))
    ∧ ToLower sampleCaseTable (TrimSpace " GoLang ") = "golang" :=
  ⟨by decide,
    (handleReceivedInformation_stores sampleCaseTable RangeOrder.listed 1
      ⟨StateTypingReply, [("age", "25")], "most impressive skill"⟩ " GoLang " (by decide)).1.1,
    by decide⟩

/-! ## `State` and `PendingChoice` -/

/-- C2, as stated, fails: after "Age" and then "Something else..." the session
is in `StateTypingChoice` and still carries the pending category "age", so
`PendingChoice` is non-empty although `State` is not `StateTypingReply`. -/
theorem pending_iff_typingReply_fails :
    ((runTexts sampleCaseTable 1 newSession
        [("Age", RangeOrder.listed), ("Something else...", RangeOrder.listed)]).1
      = ⟨StateTypingChoice, [], "age"⟩) ∧
    ¬ ((runTexts sampleCaseTable 1 newSession
        [("Age", RangeOrder.listed), ("Something else...", RangeOrder.listed)]).1.PendingChoice ≠ ""
      ↔ (runTexts sampleCaseTable 1 newSession
        [("Age", RangeOrder.listed), ("Something else...", RangeOrder.listed)]).1.State
          = StateTypingReply) := by
  decide

/-- C2, amended: in every session reachable from a fresh one by non-empty
inbound texts, `State = StateTypingReply` implies that `PendingChoice` is
non-empty, and a non-empty `PendingChoice` implies that `State` is
`StateTypingReply` or `StateTypingChoice`. -/
theorem pending_of_reachable (caseTable : Char → Char) (sess : UserSession)
    (h : Reachable caseTable sess) :
    (sess.State = StateTypingReply → sess.PendingChoice ≠ "") ∧
    (sess.PendingChoice ≠ "" →
      sess.State = StateTypingReply ∨ sess.State = StateTypingChoice) := by
  obtain ⟨chatID, inputs, hne, rfl⟩ := h
  exact runTexts_invariant caseTable chatID PendingInv
    (fun order text s ht hs => dispatch_pendingInv caseTable order chatID text s ht hs)
    inputs newSession (by simp [PendingInv, newSession, StateChoosing, StateTypingReply]) hne

/-- C2 amended, at the session reached by "Something else...", " Hobby ",
"/show_data", "Something else...". -/
theorem pending_of_reachable_witness :
    Reachable sampleCaseTable ⟨StateTypingChoice, [], "hobby"⟩ ∧
    ((StateTypingChoice = StateTypingReply → ("hobby" : String) ≠ "") ∧
      (("hobby" : String) ≠ "" →
        StateTypingChoice = StateTypingReply ∨ StateTypingChoice = StateTypingChoice)) :=
  ⟨⟨5, [("Something else...", RangeOrder.listed), (" Hobby ", RangeOrder.listed),
        ("/show_data", RangeOrder.reversed), ("Something else...", RangeOrder.listed)],
      by decide, by decide⟩,
    pending_of_reachable sampleCaseTable ⟨StateTypingChoice, [], "hobby"⟩
      ⟨5, [("Something else...", RangeOrder.listed), (" Hobby ", RangeOrder.listed),
        ("/show_data", RangeOrder.reversed), ("Something else...", RangeOrder.listed)],
      by decide, by decide⟩⟩

/-! ## `handleDone` -/

/-- C3: for every session, `handleDone` leaves `Data` as it was, sets
`PendingChoice` to the empty string and `State` to `StateChoosing`, and sends
exactly one message: its reply markup is the remove-keyboard instruction and
its text is "I learned these facts about you: " followed by `factsToStr(Data)`
and "Until next time!". -/
theorem handleDone_spec (order : RangeOrder) (chatID : Int) (sess : UserSession) :
    (handleDone order chatID sess).1.Data = sess.Data ∧
    (handleDone order chatID sess).1.PendingChoice = "" ∧
    (handleDone order chatID sess).1.State = StateChoosing ∧
    (handleDone order chatID sess).2 =
      [{ ChatID := chatID,
         Text := "I learned these facts about you: " ++ factsToStr order sess.Data
                   ++ "Until next time!",
         ReplyMarkup := Markup.remove }] :=
  ⟨rfl, rfl, rfl, rfl⟩

/-! ## `factsToStr` -/

/-- C4: `factsToStr` of the empty map is "\n\n"; for a non-empty map the
result is "\n", the lines joined by "\n", and "\n", where the lines are a
permutation of the lines `key ++ " - " ++ value` of the entries, so it starts
and ends with a newline; for the map with the single entry age: 25 it is
"\nage - 25\n". -/
theorem factsToStr_format (order : RangeOrder) (data : GoMap) (hne : data ≠ []) :
    factsToStr order [] = "\n\n" ∧
    (∃ lines : List String,
      lines.Perm (data.map (fun kv => kv.1 ++ " - " ++ kv.2)) ∧
      factsToStr order data = "\n" ++ Join lines "\n" ++ "\n") ∧
    ((factsToStr order data).data.head? = some '\n' ∧
      (factsToStr order data).data.getLast? = some '\n') ∧
    factsToStr order [("age", "25")] = "\nage - 25\n" := by
  have hlen : ¬ data.length = 0 := by
    intro h; exact hne (List.length_eq_zero.mp h)
  have e : factsToStr order data =
      "\n" ++ Join ((order.visit data).map (fun kv => kv.1 ++ " - " ++ kv.2)) "\n" ++ "\n" := by
    simp only [factsToStr, hlen, if_false]
  refine ⟨rfl, ⟨_, (order.perm data).map _, e⟩, ⟨?_, ?_⟩, ?_⟩
  · rw [e, String.append_assoc]
    exact head?_lit_append _ _ _
  · rw [e]
    exact getLast?_append_newline _
  · have h1 : ¬ ([("age", "25")] : GoMap).length = 0 := by decide
    simp only [factsToStr, h1, if_false, visit_singleton, List.map, Join]
    decide

/-- C4, at a map of two entries visited in the reverse order. -/
theorem factsToStr_format_witness :
    ([("age", "25"), ("favourite colour", "blue")] : GoMap) ≠ [] ∧
    factsToStr RangeOrder.reversed [("age", "25"), ("favourite colour", "blue")]
      = "\nfavourite colour - blue\nage - 25\n" ∧
    ((factsToStr RangeOrder.reversed
        [("age", "25"), ("favourite colour", "blue")]).data.head? = some '\n' ∧
      (factsToStr RangeOrder.reversed
        [("age", "25"), ("favourite colour", "blue")]).data.getLast? = some '\n') :=
  ⟨by decide, by decide,
    (factsToStr_format RangeOrder.reversed [("age", "25"), ("favourite colour", "blue")]
      (by decide)).2.2.1⟩

/-! ## Totality of the dispatch -/

/-- C5: for a session in one of the three states and a non-empty inbound
text, one pass of the dispatch sends exactly one message, whose text is not
empty, and leaves `State` among `StateChoosing`, `StateTypingReply`,
`StateTypingChoice`. -/
theorem dispatch_total (caseTable : Char → Char) (order : RangeOrder) (chatID : Int)
    (text : String) (sess : UserSession) (ht : text ≠ "")
    (hs : sess.State = StateChoosing ∨ sess.State = StateTypingReply ∨
      sess.State = StateTypingChoice) :
    (∃ m : MessageConfig,
      (dispatch caseTable order chatID text sess).2 = [m] ∧ m.Text ≠ "") ∧
    ((dispatch caseTable order chatID text sess).1.State = StateChoosing ∨
      (dispatch caseTable order chatID text sess).1.State = StateTypingReply ∨
      (dispatch caseTable order chatID text sess).1.State = StateTypingChoice) := by
  rcases dispatch_cases caseTable order chatID text sess ht with
    ⟨_, e⟩ | ⟨_, e⟩ | ⟨_, e⟩ | ⟨_, e⟩ | ⟨_, e⟩ | ⟨_, e⟩ | ⟨_, e⟩ | ⟨_, e⟩ <;> rw [e]
  · refine ⟨⟨_, rfl, ?_⟩, Or.inl rfl⟩
    show (if _ then _ else _) ≠ ""
    split_ifs
    · exact append_ne_empty _ _ (by decide)
    · exact append_ne_empty _ _ (by decide)
  · exact ⟨⟨_, rfl, append_ne_empty _ _ (by decide)⟩, hs⟩
  · refine ⟨⟨_, rfl, ?_⟩, Or.inl rfl⟩
    show _ ++ _ ++ _ ≠ ""
    rw [String.append_assoc]
    exact append_ne_empty _ _ (by decide)
  · exact ⟨⟨_, rfl, lit_ne_empty _ _⟩, Or.inr (Or.inr rfl)⟩
  · exact ⟨⟨_, rfl, choiceReply_ne_empty _ _⟩, Or.inr (Or.inl rfl)⟩
  · by_cases hc : ToLower caseTable (TrimSpace text) = ""
    · rw [handleCategoryName_empty _ _ _ _ hc]
      exact ⟨⟨_, rfl, lit_ne_empty _ _⟩, hs⟩
    · rw [handleCategoryName_named _ _ _ _ hc]
      exact ⟨⟨_, rfl, choiceReply_ne_empty _ _⟩, Or.inr (Or.inl rfl)⟩
  · by_cases hc : sess.PendingChoice = ""
    · rw [handleReceivedInformation_restart _ _ _ _ _ hc]
      exact ⟨⟨_, rfl, lit_ne_empty _ _⟩, Or.inl rfl⟩
    · rw [handleReceivedInformation_store _ _ _ _ _ hc]
      refine ⟨⟨_, rfl, ?_⟩, Or.inl rfl⟩
      show _ ++ _ ++ _ ≠ ""
      rw [String.append_assoc]
      exact append_ne_empty _ _ (by decide)
  · exact ⟨⟨_, rfl, lit_ne_empty _ _⟩, hs⟩

/-- C5, at a session waiting for a value that receives a blank text. -/
theorem dispatch_total_witness :
    (" " : String) ≠ "" ∧
    ((⟨StateTypingReply, [], "age"⟩ : UserSession).State = StateChoosing ∨
      (⟨StateTypingReply, [], "age"⟩ : UserSession).State = StateTypingReply ∨
      (⟨StateTypingReply, [], "age"⟩ : UserSession).State = StateTypingChoice) ∧
    (∃ m : MessageConfig,
      (dispatch sampleCaseTable RangeOrder.listed 3 " " ⟨StateTypingReply, [], "age"⟩).2 = [m] ∧
        m.Text ≠ "") :=
  ⟨by decide, by decide,
    (dispatch_total sampleCaseTable RangeOrder.listed 3 " " ⟨StateTypingReply, [], "age"⟩
      (by decide) (by decide)).1⟩

/-! ## `handleRegularChoice` -/

/-- C6: for a fixed label L among "Age", "Favourite colour", "Number of
siblings", applying `handleRegularChoice` with L twice in a row yields the
same session as applying it once (`State = StateTypingReply`,
`PendingChoice = ToLower(L)`, one of "age", "favourite colour", "number of
siblings", `Data` unchanged) and sends the same reply both times; and when `Data` holds a value for `ToLower(L)`, the reply text contains
that value. -/
theorem handleRegularChoice_idempotent (caseTable : Char → Char) (chatID : Int)
    (sess : UserSession) (L : String)
    (hL : L = "Age" ∨ L = "Favourite colour" ∨ L = "Number of siblings") :
    (handleRegularChoice caseTable chatID sess L).1
      = ⟨StateTypingReply, sess.Data, ToLower caseTable L⟩ ∧
    (ToLower caseTable L = "age" ∨ ToLower caseTable L = "favourite colour" ∨
      ToLower caseTable L = "number of siblings") ∧
    (handleRegularChoice caseTable chatID (handleRegularChoice caseTable chatID sess L).1 L).1
      = (handleRegularChoice caseTable chatID sess L).1 ∧
    (handleRegularChoice caseTable chatID (handleRegularChoice caseTable chatID sess L).1 L).2
      = (handleRegularChoice caseTable chatID sess L).2 ∧
    (∃ m : MessageConfig, (handleRegularChoice caseTable chatID sess L).2 = [m] ∧
      ∀ v, sess.Data.get (ToLower caseTable L) = some v → v.data <:+: m.Text.data) :=
  ⟨rfl,
    by
      rcases hL with h | h | h <;> subst h
      · exact Or.inl rfl
      · exact Or.inr (Or.inl rfl)
      · exact Or.inr (Or.inr rfl),
    rfl, rfl, _, rfl, fun v hv => choiceReply_contains sess.Data _ v hv⟩

/-- C6, at a session that already knows the age. -/
theorem handleRegularChoice_idempotent_witness :
    (("Age" : String) = "Age" ∨ ("Age" : String) = "Favourite colour" ∨
      ("Age" : String) = "Number of siblings") ∧
    (handleRegularChoice sampleCaseTable 2 ⟨StateChoosing, [("age", "25")], ""⟩ "Age").2
      = [⟨2, "Your age? I already know the following about that: 25", Markup.none⟩] ∧
    (handleRegularChoice sampleCaseTable 2
      (handleRegularChoice sampleCaseTable 2 ⟨StateChoosing, [("age", "25")], ""⟩ "Age").1 "Age").1
      = (handleRegularChoice sampleCaseTable 2 ⟨StateChoosing, [("age", "25")], ""⟩ "Age").1 :=
  ⟨by decide, by decide,
    (handleRegularChoice_idempotent sampleCaseTable 2 ⟨StateChoosing, [("age", "25")], ""⟩ "Age"
      (by decide)).2.2.1⟩

/-! ## Stored facts are lower case and trimmed -/

/-- C7: in every session reachable from a fresh one by non-empty inbound
texts, every key and every value of `Data` is unchanged by `ToLower` and
unchanged by `TrimSpace` (for a case table that lowers idempotently and never
lowers a rune to white space). -/
theorem data_normal_of_reachable (caseTable : Char → Char) (ok : CaseTableOK caseTable)
    (sess : UserSession) (h : Reachable caseTable sess) :
    ∀ kv ∈ sess.Data,
      (ToLower caseTable kv.1 = kv.1 ∧ TrimSpace kv.1 = kv.1) ∧
      (ToLower caseTable kv.2 = kv.2 ∧ TrimSpace kv.2 = kv.2) := by
  obtain ⟨chatID, inputs, hne, rfl⟩ := h
  exact (runTexts_invariant caseTable chatID (NormalInv caseTable)
    (fun order text s ht hs => dispatch_normalInv caseTable ok order chatID text s ht hs)
    inputs newSession ⟨fun kv hkv => (by cases hkv), normalStr_empty caseTable⟩ hne).1

/-- C7, at the session reached by "Something else...", " Город", "МОСКВА  ",
"Age", " 25". -/
theorem data_normal_of_reachable_witness :
    CaseTableOK sampleCaseTable ∧
    Reachable sampleCaseTable ⟨StateChoosing, [("город", "москва"), ("age", "25")], ""⟩ ∧
    ∀ kv ∈ ([("город", "москва"), ("age", "25")] : GoMap),
      (ToLower sampleCaseTable kv.1 = kv.1 ∧ TrimSpace kv.1 = kv.1) ∧
      (ToLower sampleCaseTable kv.2 = kv.2 ∧ TrimSpace kv.2 = kv.2) :=
  ⟨sampleCaseTable_ok,
    ⟨9, [("Something else...", RangeOrder.listed), (" Город", RangeOrder.listed),
        ("МОСКВА  ", RangeOrder.reversed), ("Age", RangeOrder.listed),
        (" 25", RangeOrder.listed)], by decide, by decide⟩,
    data_normal_of_reachable sampleCaseTable sampleCaseTable_ok
      ⟨StateChoosing, [("город", "москва"), ("age", "25")], ""⟩
      ⟨9, [("Something else...", RangeOrder.listed), (" Город", RangeOrder.listed),
        ("МОСКВА  ", RangeOrder.reversed), ("Age", RangeOrder.listed),
        (" 25", RangeOrder.listed)], by decide, by decide⟩⟩

/-! ## `handleCategoryName` -/

/-- C8: when `TrimSpace(t)` is empty, `handleCategoryName` leaves the session
unchanged and sends exactly one message, the prompt "Please provide a
non-empty category name."; otherwise it sets `PendingChoice` to
`ToLower(TrimSpace(t))` and `State` to `StateTypingReply` and leaves `Data`
unchanged. In the dispatch that prompt is sent by no other transition: a
message with that text means the session was in `StateTypingChoice`, the text
was blank after trimming, and `handleCategoryName` ran and left the session
unchanged. -/
theorem handleCategoryName_validation (caseTable : Char → Char) (chatID : Int)
    (sess : UserSession) (t : String) :
    (TrimSpace t = "" →
      handleCategoryName caseTable chatID sess t
        = (sess, [⟨chatID, "Please provide a non-empty category name.", Markup.none⟩])) ∧
    (TrimSpace t ≠ "" →
      (handleCategoryName caseTable chatID sess t).1
        = ⟨StateTypingReply, sess.Data, ToLower caseTable (TrimSpace t)⟩) ∧
    (∀ (order : RangeOrder) (m : MessageConfig),
      m ∈ (dispatch caseTable order chatID t sess).2 →
      m.Text = "Please provide a non-empty category name." →
        sess.State = StateTypingChoice ∧ TrimSpace t = "" ∧
        dispatch caseTable order chatID t sess = handleCategoryName caseTable chatID sess t ∧
        (dispatch caseTable order chatID t sess).1 = sess) := by
  refine ⟨?_, ?_, ?_⟩
  · intro h
    exact handleCategoryName_empty caseTable chatID sess t ((ToLower_eq_empty _ _).mpr h)
  · intro h
    rw [handleCategoryName_named caseTable chatID sess t
      (fun e => h ((ToLower_eq_empty _ _).mp e))]
  · intro order m hm htext
    by_cases hne : t = ""
    · subst hne
      simp [dispatch] at hm
    have hP : ("Please provide a non-empty category name." : String).data.head? = some 'P' := rfl
    rcases dispatch_cases caseTable order chatID t sess hne with
      ⟨_, e⟩ | ⟨_, e⟩ | ⟨_, e⟩ | ⟨_, e⟩ | ⟨_, e⟩ | ⟨hst, e⟩ | ⟨_, e⟩ | ⟨_, e⟩
    · rw [e] at hm
      exact absurd htext
        (text_ne_of_head _ _ _ _ (handleStart_head order chatID sess m hm) hP (by decide))
    · rw [e] at hm
      simp only [handleShowData, NewMessage, List.mem_singleton] at hm
      subst hm
      exact absurd htext (text_ne_of_head _ _ 'T' 'P' rfl hP (by decide))
    · rw [e] at hm
      simp only [handleDone, NewMessage, List.mem_singleton] at hm
      subst hm
      exact absurd htext (text_ne_of_head _ _ 'I' 'P'
        (by show (_ ++ _ ++ _ : String).data.head? = _; rw [String.append_assoc]; rfl)
        hP (by decide))
    · rw [e] at hm
      simp only [handleCustomChoice, NewMessage, List.mem_singleton] at hm
      subst hm
      exact absurd htext (text_ne_of_head _ _ 'A' 'P' rfl hP (by decide))
    · rw [e] at hm
      simp only [handleRegularChoice, NewMessage, List.mem_singleton] at hm
      subst hm
      exact absurd htext (text_ne_of_head _ _ 'Y' 'P' (choiceReply_head _ _) hP (by decide))
    · by_cases hc : ToLower caseTable (TrimSpace t) = ""
      · refine ⟨hst, (ToLower_eq_empty _ _).mp hc, e, ?_⟩
        rw [e, handleCategoryName_empty _ _ _ _ hc]
      · rw [e, handleCategoryName_named _ _ _ _ hc] at hm
        simp only [NewMessage, List.mem_singleton] at hm
        subst hm
        exact absurd htext (text_ne_of_head _ _ 'Y' 'P' (choiceReply_head _ _) hP (by decide))
    · by_cases hc : sess.PendingChoice = ""
      · rw [e, handleReceivedInformation_restart _ _ _ _ _ hc] at hm
        simp only [replyWithKeyboard, NewMessage, List.mem_singleton] at hm
        subst hm
        exact absurd htext (text_ne_of_head _ _ 'L' 'P' rfl hP (by decide))
      · rw [e, handleReceivedInformation_store _ _ _ _ _ hc] at hm
        simp only [List.mem_singleton] at hm
        subst hm
        exact absurd htext (text_ne_of_head _ _ 'N' 'P'
          (by show (_ ++ _ ++ _ : String).data.head? = _; rw [String.append_assoc]; rfl)
          hP (by decide))
    · rw [e] at hm
      simp only [nudge, replyWithKeyboard, NewMessage, List.mem_singleton] at hm
      subst hm
      have hd : ("Please pick an option or use 'Something else...' to add your own." : String)
          ≠ "Please provide a non-empty category name." := by decide
      exact absurd htext hd

/-- C8, at a blank category name sent to a session that waits for one. -/
theorem handleCategoryName_validation_witness :
    TrimSpace " \t " = "" ∧
    handleCategoryName sampleCaseTable 4 ⟨StateTypingChoice, [("age", "25")], ""⟩ " \t "
      = (⟨StateTypingChoice, [("age", "25")], ""⟩,
          [⟨4, "Please provide a non-empty category name.", Markup.none⟩]) :=
  ⟨by decide,
    (handleCategoryName_validation sampleCaseTable 4
      ⟨StateTypingChoice, [("age", "25")], ""⟩ " \t ").1 (by decide)⟩

/-! ## The commands -/

/-- C9: for a text that begins with "/start" the dispatch runs `handleStart`:
`State` becomes `StateChoosing`, `PendingChoice` empty, `Data` is unchanged,
and the single reply begins with "Hi! My name is Doctor Botter."; it contains
every key of `Data`, and when `Data` is empty it is the fixed greeting that
mentions no facts. -/
theorem dispatch_start_spec (caseTable : Char → Char) (order : RangeOrder) (chatID : Int)
    (text : String) (sess : UserSession) (h : HasPrefix text "/start" = true) :
    dispatch caseTable order chatID text sess = handleStart order chatID sess ∧
    (dispatch caseTable order chatID text sess).1 = ⟨StateChoosing, sess.Data, ""⟩ ∧
    ∃ m : MessageConfig, (dispatch caseTable order chatID text sess).2 = [m] ∧
      ("Hi! My name is Doctor Botter." : String).data <+: m.Text.data ∧
      (∀ k ∈ sess.Data.keys, k.data <:+: m.Text.data) ∧
      (sess.Data = [] → m.Text = "Hi! My name is Doctor Botter. I will hold a more complex conversation with you. Why don't you tell me something about yourself?") := by
  rw [dispatch_start caseTable order chatID text sess h]
  refine ⟨rfl, rfl, _, rfl, ?_, ?_, ?_⟩
  · show _ <+: (if _ then _ else _ : String).data
    split_ifs
    · exact List.prefix_append _ _
    · exact List.prefix_append _ _
  · intro k hk
    have hlen : sess.Data.length > 0 := by
      cases hd : sess.Data with
      | nil => rw [hd] at hk; simp [GoMap.keys] at hk
      | cons a rest => simp
    show _ <:+: (if _ then _ else _ : String).data
    rw [if_pos hlen]
    simp only [data_append]
    have h1 := infix_Join ", " k _ (mem_keys_visit order sess.Data k hk)
    exact h1.trans (((List.suffix_append _ _).isInfix.trans
      (List.prefix_append _ _).isInfix).trans (List.suffix_append _ _).isInfix)
  · intro he
    show (if _ then _ else _ : String) = _
    rw [he]
    rfl

/-- C9, at "/start again" sent to a session that knows two facts and waits for
a value. -/
theorem dispatch_start_spec_witness :
    HasPrefix "/start again" "/start" = true ∧
    dispatch sampleCaseTable RangeOrder.reversed 6 "/start again"
        ⟨StateTypingReply, [("age", "25"), ("hobby", "chess")], "age"⟩
      = (⟨StateChoosing, [("age", "25"), ("hobby", "chess")], ""⟩,
          [⟨6, "Hi! My name is Doctor Botter. You already told me your hobby, age. Why don't you tell me something more about yourself? Or change anything I already know.", makeKeyboard⟩]) ∧
    (dispatch sampleCaseTable RangeOrder.reversed 6 "/start again"
        ⟨StateTypingReply, [("age", "25"), ("hobby", "chess")], "age"⟩).1
      = ⟨StateChoosing, [("age", "25"), ("hobby", "chess")], ""⟩ :=
  ⟨by decide, by decide,
    (dispatch_start_spec sampleCaseTable RangeOrder.reversed 6 "/start again"
      ⟨StateTypingReply, [("age", "25"), ("hobby", "chess")], "age"⟩ (by decide)).2.1⟩

/-- C10: for a text that begins with "/show_data" the dispatch leaves the
session unchanged and sends exactly one message, with no reply markup, whose
text is "This is what you already told me: " followed by `factsToStr(Data)`;
for `Data` holding the single entry age: 25 the text is
"This is what you already told me: \nage - 25\n". -/
theorem dispatch_show_data_spec (caseTable : Char → Char) (order : RangeOrder) (chatID : Int)
    (text : String) (sess : UserSession) (h : HasPrefix text "/show_data" = true) :
    dispatch caseTable order chatID text sess
      = (sess, [⟨chatID, "This is what you already told me: " ++ factsToStr order sess.Data,
                 Markup.none⟩]) ∧
    dispatch caseTable order chatID text ⟨sess.State, [("age", "25")], sess.PendingChoice⟩
      = (⟨sess.State, [("age", "25")], sess.PendingChoice⟩,
          [⟨chatID, "This is what you already told me: \nage - 25\n", Markup.none⟩]) := by
  rw [dispatch_show_data caseTable order chatID text _ h,
    dispatch_show_data caseTable order chatID text _ h]
  refine ⟨rfl, ?_⟩
  have h1 : ¬ ([("age", "25")] : GoMap).length = 0 := by decide
  simp only [handleShowData, NewMessage, factsToStr, h1, if_false, visit_singleton, List.map,
    Join]
  rfl

/-- C10, at "/show_data please" sent to a session that waits for a value. -/
theorem dispatch_show_data_spec_witness :
    HasPrefix "/show_data please" "/show_data" = true ∧
    dispatch sampleCaseTable RangeOrder.reversed 8 "/show_data please"
        ⟨StateTypingReply, [("age", "25"), ("hobby", "chess")], "hobby"⟩
      = (⟨StateTypingReply, [("age", "25"), ("hobby", "chess")], "hobby"⟩,
          [⟨8, "This is what you already told me: " ++
              factsToStr RangeOrder.reversed [("age", "25"), ("hobby", "chess")],
            Markup.none⟩]) ∧
    factsToStr RangeOrder.reversed [("age", "25"), ("hobby", "chess")]
      = "\nhobby - chess\nage - 25\n" :=
  ⟨by decide,
    (dispatch_show_data_spec sampleCaseTable RangeOrder.reversed 8 "/show_data please"
      ⟨StateTypingReply, [("age", "25"), ("hobby", "chess")], "hobby"⟩ (by decide)).1,
    by decide⟩

/-! ## Free text in `StateChoosing` -/

/-- C11, as stated, fails: the nudge sent to a fresh session for the text
"hello" carries the reply keyboard, so it is not a message without the menu. -/
theorem nudge_without_menu_fails :
    (dispatch sampleCaseTable RangeOrder.listed 1 "hello" newSession).2
      = [⟨1, "Please pick an option or use 'Something else...' to add your own.",
          makeKeyboard⟩] ∧
    ¬ ∀ m ∈ (dispatch sampleCaseTable RangeOrder.listed 1 "hello" newSession).2,
        m.ReplyMarkup = Markup.none := by
  decide

/-- C11, amended: for a session with `State = StateChoosing` and a non-empty
text that is neither a command nor one of the five menu labels, the dispatch
leaves the session unchanged and sends exactly one message, the "please pick
an option" nudge, which carries the reply keyboard of `makeKeyboard`. -/
theorem dispatch_choosing_nudge (caseTable : Char → Char) (order : RangeOrder) (chatID : Int)
    (text : String) (sess : UserSession) (hs : sess.State = StateChoosing) (ht : text ≠ "")
    (hc1 : HasPrefix text "/start" = false) (hc2 : HasPrefix text "/show_data" = false)
    (hl : text ≠ "Done" ∧ text ≠ "Something else..." ∧ text ≠ "Age" ∧
      text ≠ "Favourite colour" ∧ text ≠ "Number of siblings") :
    dispatch caseTable order chatID text sess
      = (sess, [⟨chatID, "Please pick an option or use 'Something else...' to add your own.",
                 Markup.keyboard
                   [["Age", "Favourite colour"], ["Number of siblings", "Something else..."],
                     ["Done"]] true⟩]) := by
  obtain ⟨h1, h2, h3, h4, h5⟩ := hl
  have hs1 : sess.State ≠ StateTypingChoice := by rw [hs]; decide
  have hs2 : sess.State ≠ StateTypingReply := by rw [hs]; decide
  simp only [dispatch, ht, hc1, hc2, h1, h2, h3, h4, h5, hs1, hs2, if_false, or_self,
    Bool.false_eq_true]
  rfl

/-- C11 amended, at "hello" sent to a session that knows the age. -/
theorem dispatch_choosing_nudge_witness :
    (⟨StateChoosing, [("age", "25")], ""⟩ : UserSession).State = StateChoosing ∧
    ("hello" : String) ≠ "" ∧
    HasPrefix "hello" "/start" = false ∧ HasPrefix "hello" "/show_data" = false ∧
    dispatch sampleCaseTable RangeOrder.listed 12 "hello" ⟨StateChoosing, [("age", "25")], ""⟩
      = (⟨StateChoosing, [("age", "25")], ""⟩,
          [⟨12, "Please pick an option or use 'Something else...' to add your own.",
            Markup.keyboard
              [["Age", "Favourite colour"], ["Number of siblings", "Something else..."],
                ["Done"]] true⟩]) :=
  ⟨by decide, by decide, by decide, by decide,
    dispatch_choosing_nudge sampleCaseTable RangeOrder.listed 12 "hello"
      ⟨StateChoosing, [("age", "25")], ""⟩ (by decide) (by decide) (by decide) (by decide)
      (by decide)⟩

/-! ## `SessionStore.Get` -/

/-- C12: `SessionStore.Get` returns the session registered for the id and
leaves the registry unchanged when there is one; otherwise it registers and
returns the default session (`StateChoosing`, empty `Data`, empty
`PendingChoice`). Either way the entry of every other id is unchanged, no
entry is removed, and a second `Get` for the id returns the same session as
the first and leaves the registry as the first left it. -/
theorem SessionStore_Get_spec (store : SessionStore) (userID : Int) :
    (∀ sess, store.lookup userID = some sess → store.Get userID = (sess, store)) ∧
    (store.lookup userID = none →
      (store.Get userID).1 = ⟨StateChoosing, [], ""⟩ ∧
      (store.Get userID).2.lookup userID = some ⟨StateChoosing, [], ""⟩) ∧
    (∀ other, other ≠ userID → (store.Get userID).2.lookup other = store.lookup other) ∧
    (∀ id, (store.lookup id).isSome → ((store.Get userID).2.lookup id).isSome) ∧
    ((store.Get userID).2.Get userID).1 = (store.Get userID).1 ∧
    ((store.Get userID).2.Get userID).2 = (store.Get userID).2 := by
  have hsame := SessionStore.lookup_Get_same store userID
  refine ⟨fun sess h => SessionStore.Get_found store userID sess h, ?_,
    fun other hne => SessionStore.lookup_Get_other store userID other hne, ?_, ?_, ?_⟩
  · intro h
    rw [SessionStore.Get_fresh store userID h]
    exact ⟨rfl, SessionStore.lookup_assign_same _ _ _⟩
  · intro id hid
    by_cases hne : id = userID
    · subst hne; rw [hsame]; rfl
    · rw [SessionStore.lookup_Get_other store userID id hne]; exact hid
  · rw [SessionStore.Get_found _ userID _ hsame]
  · rw [SessionStore.Get_found _ userID _ hsame]

/-- C12, at a store that knows user 7 and is asked for user 9 and for user 7. -/
theorem SessionStore_Get_spec_witness :
    SessionStore.lookup [(7, ⟨StateTypingReply, [], "age"⟩)] 9 = none ∧
    ((SessionStore.Get [(7, ⟨StateTypingReply, [], "age"⟩)] 9).1 = ⟨StateChoosing, [], ""⟩ ∧
      (SessionStore.Get [(7, ⟨StateTypingReply, [], "age"⟩)] 9).2.lookup 9
        = some ⟨StateChoosing, [], ""⟩) ∧
    SessionStore.Get [(7, ⟨StateTypingReply, [], "age"⟩)] 7
      = (⟨StateTypingReply, [], "age"⟩, [(7, ⟨StateTypingReply, [], "age"⟩)]) :=
  ⟨by decide,
    (SessionStore_Get_spec [(7, ⟨StateTypingReply, [], "age"⟩)] 9).2.1 (by decide),
    by decide⟩

/-! ## The end-to-end scenario -/

/-- C13: feeding "/start", "Age", "25", "/show_data", "Something else...",
"Most impressive skill", "Golang", "Done" through the dispatch from a fresh
session: "/start" leaves `StateChoosing` and sends the greeting that lists no
facts; "Age" leaves `StateTypingReply` with pending "age" and sends the invite;
"25" stores age: 25 and returns to `StateChoosing`; the "/show_data" reply is
"This is what you already told me: \nage - 25\n"; "Something else..." leaves
`StateTypingChoice`; "Most impressive skill" leaves pending
"most impressive skill" in `StateTypingReply`; "Golang" stores "golang";
"Done" leaves `StateChoosing`, `Data` holds exactly the two entries, and the
reply carries the remove-keyboard instruction. -/
theorem scenario_end_to_end (caseTable : Char → Char)
    (o1 o2 o3 o4 o5 o6 o7 o8 : RangeOrder) (chatID : Int) :
    dispatch caseTable o1 chatID "/start" newSession
      = (⟨StateChoosing, [], ""⟩,
          [⟨chatID, "Hi! My name is Doctor Botter. I will hold a more complex conversation with you. Why don't you tell me something about yourself?", makeKeyboard⟩]) ∧
    dispatch caseTable o2 chatID "Age" ⟨StateChoosing, [], ""⟩
      = (⟨StateTypingReply, [], "age"⟩,
          [⟨chatID, "Your age? Yes, I would love to hear about that!", Markup.none⟩]) ∧
    ((dispatch caseTable o3 chatID "25" ⟨StateTypingReply, [], "age"⟩).1
        = ⟨StateChoosing, [("age", "25")], ""⟩ ∧
      GoMap.get [("age", "25")] "age" = some "25") ∧
    dispatch caseTable o4 chatID "/show_data" ⟨StateChoosing, [("age", "25")], ""⟩
      = (⟨StateChoosing, [("age", "25")], ""⟩,
          [⟨chatID, "This is what you already told me: \nage - 25\n", Markup.none⟩]) ∧
    (dispatch caseTable o5 chatID "Something else..." ⟨StateChoosing, [("age", "25")], ""⟩).1
      = ⟨StateTypingChoice, [("age", "25")], ""⟩ ∧
    (dispatch caseTable o6 chatID "Most impressive skill"
        ⟨StateTypingChoice, [("age", "25")], ""⟩).1
      = ⟨StateTypingReply, [("age", "25")], "most impressive skill"⟩ ∧
    ((dispatch caseTable o7 chatID "Golang"
        ⟨StateTypingReply, [("age", "25")], "most impressive skill"⟩).1
        = ⟨StateChoosing, [("age", "25"), ("most impressive skill", "golang")], ""⟩ ∧
      GoMap.get [("age", "25"), ("most impressive skill", "golang")] "most impressive skill"
        = some "golang") ∧
    ((dispatch caseTable o8 chatID "Done"
        ⟨StateChoosing, [("age", "25"), ("most impressive skill", "golang")], ""⟩).1
        = ⟨StateChoosing, [("age", "25"), ("most impressive skill", "golang")], ""⟩ ∧
      ∃ m : MessageConfig,
        (dispatch caseTable o8 chatID "Done"
          ⟨StateChoosing, [("age", "25"), ("most impressive skill", "golang")], ""⟩).2 = [m] ∧
        m.ReplyMarkup = Markup.remove) ∧
    (runTexts caseTable chatID newSession
        [("/start", o1), ("Age", o2), ("25", o3), ("/show_data", o4),
          ("Something else...", o5), ("Most impressive skill", o6), ("Golang", o7),
          ("Done", o8)]).1
      = ⟨StateChoosing, [("age", "25"), ("most impressive skill", "golang")], ""⟩ := by
  have h4 : dispatch caseTable o4 chatID "/show_data" ⟨StateChoosing, [("age", "25")], ""⟩
      = (⟨StateChoosing, [("age", "25")], ""⟩,
          [⟨chatID, "This is what you already told me: \nage - 25\n", Markup.none⟩]) := by
    rw [dispatch_show_data caseTable o4 chatID "/show_data" _ rfl]
    simp only [handleShowData, NewMessage, factsToStr_age_25]
    rfl
  refine ⟨rfl, rfl, ⟨rfl, rfl⟩, h4, rfl, rfl, ⟨rfl, rfl⟩, ⟨rfl, _, rfl, rfl⟩, rfl⟩

/-! ## `handleCustomChoice` -/

/-- C15: for every session, `handleCustomChoice` sets `State` to
`StateTypingChoice` and leaves `Data` and `PendingChoice` as they were; it
sends exactly one message, the prompt for a custom category name, with no
reply markup; the dispatch runs it for the text "Something else...". -/
theorem handleCustomChoice_spec (caseTable : Char → Char) (order : RangeOrder) (chatID : Int)
    (sess : UserSession) :
    handleCustomChoice chatID sess
      = (⟨StateTypingChoice, sess.Data, sess.PendingChoice⟩,
          [⟨chatID,
            "Alright, please send me the category first, for example \"Most impressive skill\"",
            Markup.none⟩]) ∧
    dispatch caseTable order chatID "Something else..." sess = handleCustomChoice chatID sess :=
  ⟨rfl, rfl⟩

/-! ## Free text in `StateTypingReply` without a pending category -/

/-- C16: for a session whose `PendingChoice` is empty and any text,
`handleReceivedInformation` leaves `Data` and `PendingChoice` unchanged (no
entry is stored under the empty key), sets `State` to `StateChoosing`, and
sends exactly one message, "Let's start again. Please pick a category.", with
the reply keyboard. -/
theorem handleReceivedInformation_no_pending (caseTable : Char → Char) (order : RangeOrder)
    (chatID : Int) (sess : UserSession) (t : String) (hp : sess.PendingChoice = "") :
    handleReceivedInformation caseTable order chatID sess t
      = (⟨StateChoosing, sess.Data, ""⟩,
          [⟨chatID, "Let's start again. Please pick a category.",
            Markup.keyboard
              [["Age", "Favourite colour"], ["Number of siblings", "Something else..."],
                ["Done"]] true⟩]) ∧
    (handleReceivedInformation caseTable order chatID sess t).1.Data.get "" = sess.Data.get "" := by
  rw [handleReceivedInformation_restart caseTable order chatID sess t hp, hp]
  exact ⟨rfl, rfl⟩

/-- C16, at the session of `TestDoneKeepsDataAndRemovesKeyboard`. -/
theorem handleReceivedInformation_no_pending_witness :
    (⟨StateTypingReply, [("age", "25")], ""⟩ : UserSession).PendingChoice = "" ∧
    handleReceivedInformation sampleCaseTable RangeOrder.listed 1
        ⟨StateTypingReply, [("age", "25")], ""⟩ "Golang"
      = (⟨StateChoosing, [("age", "25")], ""⟩,
          [⟨1, "Let's start again. Please pick a category.",
            Markup.keyboard
              [["Age", "Favourite colour"], ["Number of siblings", "Something else..."],
                ["Done"]] true⟩]) :=
  ⟨by decide,
    (handleReceivedInformation_no_pending sampleCaseTable RangeOrder.listed 1
      ⟨StateTypingReply, [("age", "25")], ""⟩ "Golang" (by decide)).1⟩

/-! ## Classification of the inbound text -/

/-- C17: for a session in `StateTypingReply` with a non-empty `PendingChoice`
p and a non-empty text t, the dispatch runs the storing transition
`handleReceivedInformation` exactly when t does not begin with "/start" or
"/show_data" and is none of "Done", "Something else...", "Age",
"Favourite colour", "Number of siblings"; when it does, `Data[p]` becomes
`ToLower(TrimSpace(t))`, and when it does not, `Data` is left as it was. So
"Done" stores nothing, while "done" and " Done" are stored as "done". -/
theorem dispatch_stores_iff (caseTable : Char → Char) (order : RangeOrder) (chatID : Int)
    (sess : UserSession) (t : String) (hs : sess.State = StateTypingReply)
    (hp : sess.PendingChoice ≠ "") (ht : t ≠ "") :
    (dispatch caseTable order chatID t sess
        = handleReceivedInformation caseTable order chatID sess t ↔
      (HasPrefix t "/start" = false ∧ HasPrefix t "/show_data" = false ∧
        t ≠ "Done" ∧ t ≠ "Something else..." ∧ t ≠ "Age" ∧
        t ≠ "Favourite colour" ∧ t ≠ "Number of siblings")) ∧
    (dispatch caseTable order chatID t sess
        = handleReceivedInformation caseTable order chatID sess t →
      (dispatch caseTable order chatID t sess).1.Data
          = sess.Data.set sess.PendingChoice (ToLower caseTable (TrimSpace t)) ∧
      (dispatch caseTable order chatID t sess).1.Data.get sess.PendingChoice
          = some (ToLower caseTable (TrimSpace t))) ∧
    (dispatch caseTable order chatID t sess
        ≠ handleReceivedInformation caseTable order chatID sess t →
      (dispatch caseTable order chatID t sess).1.Data = sess.Data) ∧
    (dispatch caseTable order chatID "Done" sess).1.Data = sess.Data ∧
    (dispatch caseTable order chatID "done" sess).1.Data.get sess.PendingChoice
      = some "done" ∧
    (dispatch caseTable order chatID " Done" sess).1.Data.get sess.PendingChoice
      = some "done" := by
  have hstore : ∀ v : String,
      (handleReceivedInformation caseTable order chatID sess v).1.Data
          = sess.Data.set sess.PendingChoice (ToLower caseTable (TrimSpace v)) ∧
      ∃ m : MessageConfig,
        (handleReceivedInformation caseTable order chatID sess v).2 = [m] ∧
        m.Text.data.head? = some 'N' := by
    intro v
    rw [handleReceivedInformation_store caseTable order chatID sess v hp]
    refine ⟨rfl, _, rfl, ?_⟩
    show (_ ++ _ ++ _ : String).data.head? = _
    rw [String.append_assoc]; rfl
  have hfixed : ¬ (HasPrefix t "/start" = false ∧ HasPrefix t "/show_data" = false ∧
        t ≠ "Done" ∧ t ≠ "Something else..." ∧ t ≠ "Age" ∧
        t ≠ "Favourite colour" ∧ t ≠ "Number of siblings") →
      (dispatch caseTable order chatID t sess).1.Data = sess.Data ∧
      dispatch caseTable order chatID t sess
        ≠ handleReceivedInformation caseTable order chatID sess t := by
    intro hn
    have hcl : HasPrefix t "/start" = true ∨ HasPrefix t "/show_data" = true ∨
        t = "Done" ∨ t = "Something else..." ∨ t = "Age" ∨
        t = "Favourite colour" ∨ t = "Number of siblings" := by
      by_contra hc
      simp only [not_or, Bool.not_eq_true] at hc
      exact hn hc
    obtain ⟨hd, m, c, hm, hc, hcN⟩ := dispatch_fixed_input caseTable order chatID t sess hcl
    refine ⟨hd, fun e => ?_⟩
    obtain ⟨_, m', hm', hN⟩ := hstore t
    rw [e, hm'] at hm
    have : m' = m := by simpa using hm
    subst this
    rw [hN] at hc
    exact hcN (Option.some.inj hc).symm
  refine ⟨⟨fun e => ?_, fun hfree => dispatch_typingReply_free caseTable order chatID t sess hs ht hfree⟩,
    fun e => ?_, fun hne => ?_, rfl, ?_, ?_⟩
  · by_contra hn
    exact (hfixed hn).2 e
  · rw [e, (hstore t).1]
    exact ⟨rfl, GoMap.get_set_same _ _ _⟩
  · by_contra hd
    apply hne
    apply dispatch_typingReply_free caseTable order chatID t sess hs ht
    by_contra hn
    exact hd (hfixed hn).1
  · rw [dispatch_typingReply_free caseTable order chatID "done" sess hs (by decide)
      (by decide), (hstore "done").1, GoMap.get_set_same]
    rfl
  · rw [dispatch_typingReply_free caseTable order chatID " Done" sess hs (by decide)
      (by decide), (hstore " Done").1, GoMap.get_set_same]
    rfl

/-- C17, at a session that waits for the age and receives " Done". -/
theorem dispatch_stores_iff_witness :
    (⟨StateTypingReply, [], "age"⟩ : UserSession).State = StateTypingReply ∧
    (⟨StateTypingReply, [], "age"⟩ : UserSession).PendingChoice ≠ "" ∧
    (" Done" : String) ≠ "" ∧
    (dispatch sampleCaseTable RangeOrder.listed 3 " Done" ⟨StateTypingReply, [], "age"⟩).1
      = ⟨StateChoosing, [("age", "done")], ""⟩ ∧
    (dispatch sampleCaseTable RangeOrder.listed 3 "Done" ⟨StateTypingReply, [], "age"⟩).1.Data
      = [] :=
  ⟨by decide, by decide, by decide, by decide,
    (dispatch_stores_iff sampleCaseTable RangeOrder.listed 3 ⟨StateTypingReply, [], "age"⟩
      " Done" (by decide) (by decide) (by decide)).2.2.2.1⟩

/-! ## The frame of `Data` -/

/-- C18: for every session and every non-empty inbound text, one pass of the
dispatch either leaves `Data` identical, or the session was in
`StateTypingReply` with a non-empty `PendingChoice` and `Data` is assigned at
that key the value `ToLower(TrimSpace(text))`; every other key keeps its
lookup, no key is removed, and the number of entries grows by at most one. -/
theorem dispatch_data_frame (caseTable : Char → Char) (order : RangeOrder) (chatID : Int)
    (text : String) (sess : UserSession) (ht : text ≠ "") :
    ((dispatch caseTable order chatID text sess).1.Data = sess.Data ∨
      (sess.State = StateTypingReply ∧ sess.PendingChoice ≠ "" ∧
        (dispatch caseTable order chatID text sess).1.Data
          = sess.Data.set sess.PendingChoice (ToLower caseTable (TrimSpace text)) ∧
        (dispatch caseTable order chatID text sess).1.Data.get sess.PendingChoice
          = some (ToLower caseTable (TrimSpace text)))) ∧
    (∀ k, k ≠ sess.PendingChoice →
      (dispatch caseTable order chatID text sess).1.Data.get k = sess.Data.get k) ∧
    (∀ k, (sess.Data.get k).isSome →
      ((dispatch caseTable order chatID text sess).1.Data.get k).isSome) ∧
    (dispatch caseTable order chatID text sess).1.Data.length ≤ sess.Data.length + 1 := by
  have key : (dispatch caseTable order chatID text sess).1.Data = sess.Data ∨
      (sess.State = StateTypingReply ∧ sess.PendingChoice ≠ "" ∧
        (dispatch caseTable order chatID text sess).1.Data
          = sess.Data.set sess.PendingChoice (ToLower caseTable (TrimSpace text))) := by
    rcases dispatch_cases caseTable order chatID text sess ht with
      ⟨_, e⟩ | ⟨_, e⟩ | ⟨_, e⟩ | ⟨_, e⟩ | ⟨_, e⟩ | ⟨_, e⟩ | ⟨hst, e⟩ | ⟨_, e⟩ <;> rw [e]
    · exact Or.inl rfl
    · exact Or.inl rfl
    · exact Or.inl rfl
    · exact Or.inl rfl
    · exact Or.inl rfl
    · by_cases hc : ToLower caseTable (TrimSpace text) = ""
      · rw [handleCategoryName_empty _ _ _ _ hc]; exact Or.inl rfl
      · rw [handleCategoryName_named _ _ _ _ hc]; exact Or.inl rfl
    · by_cases hc : sess.PendingChoice = ""
      · rw [handleReceivedInformation_restart _ _ _ _ _ hc]; exact Or.inl rfl
      · rw [handleReceivedInformation_store _ _ _ _ _ hc]; exact Or.inr ⟨hst, hc, rfl⟩
    · exact Or.inl rfl
  rcases key with h | ⟨hst, hp, h⟩
  · rw [h]
    exact ⟨Or.inl rfl, fun _ _ => rfl, fun _ hk => hk, Nat.le_succ _⟩
  · rw [h]
    exact ⟨Or.inr ⟨hst, hp, rfl, GoMap.get_set_same _ _ _⟩,
      fun k hk => GoMap.get_set_other _ _ _ k hk,
      fun k hk => GoMap.get_isSome_set _ _ _ k hk,
      GoMap.length_set_le _ _ _⟩

/-- C18, at a session that waits for the colour and receives " Blue ". -/
theorem dispatch_data_frame_witness :
    (" Blue " : String) ≠ "" ∧
    (dispatch sampleCaseTable RangeOrder.listed 3 " Blue "
        ⟨StateTypingReply, [("age", "25")], "favourite colour"⟩).1.Data
      = [("age", "25"), ("favourite colour", "blue")] ∧
    (∀ k, k ≠ "favourite colour" →
      (dispatch sampleCaseTable RangeOrder.listed 3 " Blue "
        ⟨StateTypingReply, [("age", "25")], "favourite colour"⟩).1.Data.get k
        = GoMap.get [("age", "25")] k) :=
  ⟨by decide, by decide,
    (dispatch_data_frame sampleCaseTable RangeOrder.listed 3 " Blue "
      ⟨StateTypingReply, [("age", "25")], "favourite colour"⟩ (by decide)).2.1⟩

/-! ## Sessions of different users -/

/-- C19: one pass of the update loop for a message of user A (`Get` of A's
session, then the dispatch on it) leaves the session registered for every
other user id unchanged; the session it registers for A and the replies it
sends are those of the dispatch on A's prior session (the default session when
A had none), so they are the same in any two stores that agree on A. -/
theorem processUpdate_isolation (caseTable : Char → Char) (order : RangeOrder)
    (store store' : SessionStore) (m : Message) (other : Int)
    (hother : other ≠ userIDOf m)
    (hagree : store.lookup (userIDOf m) = store'.lookup (userIDOf m)) :
    (processUpdate caseTable order store (some m)).1.lookup other = store.lookup other ∧
    ((processUpdate caseTable order store (some m)).1.lookup (userIDOf m)
        = some (dispatch caseTable order m.ChatID m.Text
            ((store.lookup (userIDOf m)).getD newSession)).1 ∧
      (processUpdate caseTable order store (some m)).2
        = (dispatch caseTable order m.ChatID m.Text
            ((store.lookup (userIDOf m)).getD newSession)).2) ∧
    (processUpdate caseTable order store (some m)).1.lookup (userIDOf m)
      = (processUpdate caseTable order store' (some m)).1.lookup (userIDOf m) ∧
    (processUpdate caseTable order store (some m)).2
      = (processUpdate caseTable order store' (some m)).2 := by
  have hA : ∀ st : SessionStore,
      (processUpdate caseTable order st (some m)).1.lookup (userIDOf m)
          = some (dispatch caseTable order m.ChatID m.Text
              ((st.lookup (userIDOf m)).getD newSession)).1 ∧
      (processUpdate caseTable order st (some m)).2
          = (dispatch caseTable order m.ChatID m.Text
              ((st.lookup (userIDOf m)).getD newSession)).2 := by
    intro st
    have hg := SessionStore.Get_fst st (userIDOf m)
    refine ⟨?_, ?_⟩
    · show ((st.Get (userIDOf m)).2.assign (userIDOf m) _).lookup (userIDOf m) = _
      rw [SessionStore.lookup_assign_same, hg]
    · show (dispatch caseTable order m.ChatID m.Text (st.Get (userIDOf m)).1).2 = _
      rw [hg]
  refine ⟨?_, hA store, ?_, ?_⟩
  · simp only [processUpdate]
    rw [SessionStore.lookup_assign_other _ _ _ _ hother,
      SessionStore.lookup_Get_other _ _ _ hother]
  · rw [(hA store).1, (hA store').1, hagree]
  · rw [(hA store).2, (hA store').2, hagree]

/-- C19, at a message of user 7 while user 9 waits for a value: in the store
where user 9 is known and in the store where nobody is, user 7 gets the same
session and reply, and the session of user 9 stays as it was. -/
theorem processUpdate_isolation_witness :
    (9 : Int) ≠ userIDOf ⟨some 7, 70, "Age"⟩ ∧
    SessionStore.lookup [(9, ⟨StateTypingReply, [], "age"⟩)] (userIDOf ⟨some 7, 70, "Age"⟩)
      = SessionStore.lookup [] (userIDOf ⟨some 7, 70, "Age"⟩) ∧
    processUpdate sampleCaseTable RangeOrder.listed [(9, ⟨StateTypingReply, [], "age"⟩)]
        (some ⟨some 7, 70, "Age"⟩)
      = ([(9, ⟨StateTypingReply, [], "age"⟩), (7, ⟨StateTypingReply, [], "age"⟩)],
          [⟨70, "Your age? Yes, I would love to hear about that!", Markup.none⟩]) ∧
    (processUpdate sampleCaseTable RangeOrder.listed [(9, ⟨StateTypingReply, [], "age"⟩)]
        (some ⟨some 7, 70, "Age"⟩)).1.lookup 9
      = SessionStore.lookup [(9, ⟨StateTypingReply, [], "age"⟩)] 9 :=
  ⟨by decide, by decide, by decide,
    (processUpdate_isolation sampleCaseTable RangeOrder.listed
      [(9, ⟨StateTypingReply, [], "age"⟩)] [] ⟨some 7, 70, "Age"⟩ 9
      (by decide) (by decide)).1⟩

/-! ## Blank values -/

/-- C20: a session in `StateTypingReply` with pending "age" accepts the text
" ": it stores the empty string under "age" and returns to `StateChoosing`.
Selecting "Age" afterwards sends the invite, not the echo of a stored value,
although "age" is a key of `Data`, appears in the reply to "/start", and
`factsToStr` lists the line "age - " (for no other fact the block is
"\nage - \n"). -/
theorem blank_value_accepted (caseTable : Char → Char) (order order' : RangeOrder)
    (chatID : Int) (data : GoMap) :
    (dispatch caseTable order chatID " " ⟨StateTypingReply, data, "age"⟩).1
      = ⟨StateChoosing, data.set "age" "", ""⟩ ∧
    GoMap.get (data.set "age" "") "age" = some "" ∧
    dispatch caseTable order' chatID "Age" ⟨StateChoosing, data.set "age" "", ""⟩
      = (⟨StateTypingReply, data.set "age" "", "age"⟩,
          [⟨chatID, "Your age? Yes, I would love to hear about that!", Markup.none⟩]) ∧
    "age" ∈ GoMap.keys (data.set "age" "") ∧
    (∃ m : MessageConfig,
      (dispatch caseTable order' chatID "/start" ⟨StateChoosing, data.set "age" "", ""⟩).2
        = [m] ∧ ("age" : String).data <:+: m.Text.data) ∧
    ("age - " : String).data <:+: (factsToStr order' (data.set "age" "")).data ∧
    factsToStr order' (GoMap.set [] "age" "") = "\nage - \n" := by
  have hmem : (("age", "") : String × String) ∈ data.set "age" "" :=
    GoMap.mem_set_self data "age" ""
  have hkey : "age" ∈ GoMap.keys (data.set "age" "") :=
    List.mem_map_of_mem Prod.fst hmem
  have hget : GoMap.get (data.set "age" "") "age" = some "" := GoMap.get_set_same _ _ _
  refine ⟨?_, hget, ?_, hkey, ?_, ?_, ?_⟩
  · rw [dispatch_typingReply_free caseTable order chatID " " ⟨StateTypingReply, data, "age"⟩
      rfl (by decide) (by decide),
      handleReceivedInformation_store caseTable order chatID ⟨StateTypingReply, data, "age"⟩
        " " (lit_ne_empty _ _)]
    rfl
  · rw [dispatch_label caseTable order' chatID "Age" _ (Or.inl rfl)]
    have e : ToLower caseTable "Age" = "age" := rfl
    simp only [handleRegularChoice, e, choiceReply_empty_value _ _ hget]
    rfl
  · rw [dispatch_start caseTable order' chatID "/start" _ rfl]
    exact handleStart_lists_key order' chatID _ "age" hkey
  · exact factsToStr_lists_entry order' _ ("age", "") hmem
  · have h1 : ¬ (GoMap.set [] "age" "").length = 0 := by decide
    simp only [factsToStr, h1, if_false, GoMap.set, visit_singleton, List.map, Join]
    rfl

end GoBot
